import Mathlib

/-!
Verification of the XMODEM protocol implementation in
`src/shell/xmodem/src/lib.rs`.

The Rust code is shallowly embedded as programs in a free monad `Proc`
over the effects the code uses: reading one byte from the inner transport
(`read_exact` on a 1-byte buffer), writing one byte (`write_all`),
emitting a progress event, and reading/updating the engine's own fields
(`packet`, `started`).  Machine bytes are `Nat` with explicit `% 256`
where the Rust `u8` arithmetic wraps.

Two interpreters are provided:
* `run` executes a program against a scripted transport (a list of bytes
  to be read, plus per-write fault injections), threading the engine
  state; exhausting the read script models `read_exact` hitting EOF
  (`UnexpectedEof`, as `std::io` does).
* `procStep`/`runPair` execute a transmitter program and a receiver
  program coupled back-to-back over a pair of byte queues (a loopback
  transport), one effect at a time, so that blocking reads on an empty
  queue and deadlocks are observable.
-/

namespace Xmodem

set_option maxRecDepth 100000

/-- Control bytes, as in the source (`SOH`, `EOT`, `ACK`, `NAK`, `CAN`). -/
def SOH : Nat := 0x01
def EOT : Nat := 0x04
def ACK : Nat := 0x06
def NAK : Nat := 0x15
def CAN : Nat := 0x18

/-- The `std::io::ErrorKind` values this crate uses. -/
inductive ErrorKind where
  | UnexpectedEof
  | InvalidData
  | Interrupted
  | ConnectionAborted
  | BrokenPipe
  | Other
deriving DecidableEq

/-- An `std::io::Error`: a kind plus its message. -/
structure IOError where
  kind : ErrorKind
  msg : String
deriving DecidableEq

/-- The `Progress` events of the `progress` module. -/
inductive Progress where
  | Waiting
  | Started
  | Packet (seq : Nat)
deriving DecidableEq

/-- The engine-owned fields of `struct Xmodem`: `packet` (the `u8`
sequence number) and `started`. -/
structure EngState where
  packet : Nat
  started : Bool
deriving DecidableEq

/-- Free-monad syntax for the effects performed by the Rust code.
`readB` is a blocking one-byte read; `writeB` is a one-byte write whose
continuation receives `none` on success or the transport's error;
`emitP` invokes the progress callback; `getSt`/`setSt` access the
engine's own fields; `fail` is an early `return Err(e)`. -/
inductive Proc (α : Type) where
  | pure (a : α)
  | fail (e : IOError)
  | readB (k : Option Nat → Proc α)
  | writeB (b : Nat) (k : Option IOError → Proc α)
  | emitP (p : Progress) (k : Proc α)
  | getSt (k : EngState → Proc α)
  | setSt (s : EngState) (k : Proc α)

def Proc.bind : Proc α → (α → Proc β) → Proc β
  | .pure a, f => f a
  | .fail e, _ => .fail e
  | .readB k, f => .readB (fun b => (k b).bind f)
  | .writeB b k, f => .writeB b (fun r => (k r).bind f)
  | .emitP p k, f => .emitP p (k.bind f)
  | .getSt k, f => .getSt (fun s => (k s).bind f)
  | .setSt s k, f => .setSt s (k.bind f)

instance : Monad Proc where
  pure := Proc.pure
  bind := Proc.bind

/-- Reify the result of a program, so that a caller can `match` on the
`io::Result` instead of propagating it with `?` (as the retry loops in
`transmit_with_progress` / `receive_with_progress` do). -/
def Proc.attempt : Proc α → Proc (Except IOError α)
  | .pure a => .pure (.ok a)
  | .fail e => .pure (.error e)
  | .readB k => .readB (fun b => (k b).attempt)
  | .writeB b k => .writeB b (fun r => (k r).attempt)
  | .emitP p k => .emitP p k.attempt
  | .getSt k => .getSt (fun s => (k s).attempt)
  | .setSt s k => .setSt s k.attempt

def throwErr (e : IOError) : Proc α := .fail e

/-- One byte read from the inner stream via `read_exact`: a read that
yields no byte (end of the scripted input) is the transport failure
`read_exact` reports as `UnexpectedEof`. -/
def readByteRaw : Proc Nat :=
  .readB (fun r => match r with
    | some b => .pure b
    | none => .fail ⟨.UnexpectedEof, "failed to fill whole buffer"⟩)

/-- `self.inner.write_all(&[byte])` with the `?` operator: a transport
error is propagated. -/
def writeAllByte (b : Nat) : Proc Unit :=
  .writeB b (fun r => match r with
    | none => .pure ()
    | some e => .fail e)

/-- A `write_all` whose `io::Result` is discarded by the caller (the
statement `self.write_byte(checksum);` at line 351 of the source has no
`?`): the byte is written if the transport accepts it, but a transport
error is dropped on the floor. -/
def writeByteDropped (b : Nat) : Proc Unit := .writeB b (fun _ => .pure ())

def emit (p : Progress) : Proc Unit := .emitP p (.pure ())

def getEng : Proc EngState := .getSt .pure

def setEng (s : EngState) : Proc Unit := .setSt s (.pure ())

/-- Rust `!p` on a `u8`: bitwise complement. -/
def not8 (b : Nat) : Nat := 255 - b % 256

/-- Rust `u8::wrapping_add(p, 1)`. -/
def wrapInc (p : Nat) : Nat := (p + 1) % 256

/-- `Xmodem::read_byte`: read one byte; if `abort_on_can` and the byte
is `CAN`, fail with `ConnectionAborted`. -/
def read_byte (abort_on_can : Bool) : Proc Nat := do
  let b ← readByteRaw
  if abort_on_can && b == CAN then
    throwErr ⟨.ConnectionAborted, "received CAN"⟩
  else
    pure b

/-- `Xmodem::write_byte`. -/
def write_byte (b : Nat) : Proc Unit := writeAllByte b

/-- `Xmodem::expect_byte_or_cancel`. -/
def expect_byte_or_cancel (byte : Nat) (msg : String) : Proc Nat := do
  let result ← read_byte false
  if byte == result then
    pure byte
  else if result == CAN then do
    write_byte CAN
    throwErr ⟨.ConnectionAborted, "received CAN"⟩
  else do
    write_byte CAN
    throwErr ⟨.InvalidData, msg⟩

/-- `Xmodem::expect_byte`. -/
def expect_byte (byte : Nat) (expected : String) : Proc Nat := do
  let b ← read_byte true
  if byte == b then
    pure b
  else if b == CAN then
    throwErr ⟨.ConnectionAborted, "received CAN"⟩
  else
    throwErr ⟨.InvalidData, expected⟩

/-- The payload loop of `read_packet`:
`for i in 0..127 { buf[i] = self.read_byte(true)?;
checksum = (checksum + buf[i]) % 256; }`
(`fuel` counts the remaining iterations, `i` is the next index). -/
def read_payload : Nat → Nat → List Nat → Nat → Proc (List Nat × Nat)
  | _, 0, buf, checksum => pure (buf, checksum)
  | i, fuel+1, buf, checksum => do
      let b ← read_byte true
      read_payload (i+1) fuel (buf.set i b) ((checksum + b) % 256)

/-- The part of `read_packet` that follows the packet-number bytes of
a data packet (source lines 269-283): read the 127 payload bytes while
accumulating the checksum, read the checksum byte, then either NAK +
`Interrupted` on a mismatch, or emit the progress event, increment the
sequence number (wrapping), write ACK and return 128. -/
def read_packet_tail (buf : List Nat) : Proc (Nat × List Nat) := do
  let r ← read_payload 0 127 buf 0
  let c ← read_byte true
  if r.2 != c then do
    write_byte NAK
    throwErr ⟨.Interrupted, "checksum failed"⟩
  else do
    let st2 ← getEng
    emit (.Packet st2.packet)
    setEng { st2 with packet := wrapInc st2.packet }
    write_byte ACK
    pure (128, r.1)

/-- `Xmodem::read_packet`. -/
def read_packet (buf : List Nat) : Proc (Nat × List Nat) := do
  if buf.length < 128 then
    throwErr ⟨.UnexpectedEof, "invalid packet format"⟩
  else
    let st ← getEng
    if !st.started then do
      write_byte NAK
      setEng { st with started := true }
      emit .Started
    let byte ← read_byte true
    if byte == SOH then do
      let st ← getEng
      let b1 ← read_byte true
      if b1 != st.packet then
        write_byte CAN
      let b2 ← read_byte true
      if b2 != not8 st.packet then
        write_byte CAN
      read_packet_tail buf
    else if byte == EOT then do
      write_byte NAK
      let _ ← expect_byte EOT "expected EOT byte"
      write_byte ACK
      pure (0, buf)
    else
      throwErr ⟨.InvalidData, "expected SOH or EOT byte"⟩

/-- The payload loop of `write_packet`:
`for i in 0..127 { self.write_byte(buf[i])?;
checksum = (checksum + buf[i]) % 256; }`
returning the accumulated checksum. -/
def write_payload : Nat → Nat → List Nat → Nat → Proc Nat
  | _, 0, _, checksum => pure checksum
  | i, fuel+1, buf, checksum => do
      write_byte (buf.getD i 0)
      write_payload (i+1) fuel buf ((checksum + buf.getD i 0) % 256)

/-- `Xmodem::write_packet`. -/
def write_packet (buf : List Nat) : Proc Nat := do
  if buf.length < 128 && buf.length != 0 then
    throwErr ⟨.UnexpectedEof, "unexpected packet format"⟩
  else
    let st ← getEng
    if !st.started then do
      emit .Waiting
      let _ ← expect_byte NAK "expected NAK as first byte"
      setEng { st with started := true }
      emit .Started
    if buf.length != 0 then do
      let st ← getEng
      let packet := st.packet
      write_byte SOH
      write_byte packet
      let _ ← read_byte true
      write_byte (not8 packet)
      let _ ← read_byte true
      emit .Started
      let checksum ← write_payload 0 127 buf 0
      writeByteDropped checksum
      let done ← read_byte true
      if done == ACK then do
        let st2 ← getEng
        emit (.Packet st2.packet)
        setEng { st2 with packet := wrapInc st2.packet }
        pure buf.length
      else if done == NAK then
        throwErr ⟨.Interrupted, "checksum failed"⟩
      else
        throwErr ⟨.InvalidData, "expected ACK or NAK"⟩
    else do
      write_byte EOT
      let _ ← expect_byte NAK "expected NAK to end the transmission"
      write_byte EOT
      let _ ← expect_byte ACK "expected ACK to end the transmission"
      let st2 ← getEng
      setEng { st2 with started := false }
      pure 0

/-- One inner retry loop of `transmit_with_progress`
(`for _ in 0..10 { match transmitter.write_packet(&packet) { ... } }`):
`attempts` is the number of loop iterations remaining; exhausting them
falls through to `Err(io::Error::new(io::ErrorKind::BrokenPipe, "bad
transmit"))`. -/
def transmitRetry (pkt : List Nat) : Nat → Proc Unit
  | 0 => throwErr ⟨.BrokenPipe, "bad transmit"⟩
  | a+1 => do
      let r ← (write_packet pkt).attempt
      match r with
      | .error e => if e.kind == .Interrupted then transmitRetry pkt a else throwErr e
      | .ok _ => pure ()

/-- Modelled from the spec: `read_ext::ReadExt::read_max` (module
`read_ext` is not under `src/`); per the spec the transmit driver
"repeatedly reads up to 128 bytes from `source` into a buffer" until a
zero-length read.  For a pure in-memory source this yields the source
split into consecutive chunks of at most 128 bytes; `fuel` is a
structural recursion bound, instantiated with the source length (each
step consumes at least one byte, so the bound is never hit). -/
def readChunks : Nat → List Nat → List (List Nat)
  | _, [] => []
  | 0, _ => []
  | fuel+1, data => data.take 128 :: readChunks fuel (data.drop 128)

/-- The `'next_packet` loop of `transmit_with_progress`, driven by the
successive `read_max` results: each chunk is zero-padded to 128 bytes
and sent with up to 10 attempts; when the source is exhausted the
end-of-transfer packet is sent and the number of real (non-padding)
bytes is returned. -/
def transmit_go : List (List Nat) → Nat → Proc Nat
  | [], written => do
      let _ ← write_packet []
      pure written
  | chunk :: rest, written => do
      let _ ← transmitRetry (chunk ++ List.replicate (128 - chunk.length) 0) 10
      transmit_go rest (written + chunk.length)

/-- `Xmodem::transmit` (with the no-op progress callback) as a `Proc`
program over the transport, with the data source given as a pure list. -/
def transmit (data : List Nat) : Proc Nat :=
  transmit_go (readChunks data.length data) 0

/-- One inner retry loop of `receive_with_progress`: up to 10 attempts
of `read_packet`, retrying on `Interrupted`, else propagating; returns
the successful `(bytes_read, buffer)`. -/
def receiveRetry (buf : List Nat) : Nat → Proc (Nat × List Nat)
  | 0 => throwErr ⟨.BrokenPipe, "bad receive"⟩
  | a+1 => do
      let r ← (read_packet buf).attempt
      match r with
      | .error e => if e.kind == .Interrupted then receiveRetry buf a else throwErr e
      | .ok v => pure v

/-- The `'next_packet` loop of `receive_with_progress`.  The sink
(`into`) is modelled as an accumulated byte list; `into.write_all
(&packet)` appends the whole 128-byte buffer.  `fuel` bounds the number
of outer iterations (the Rust loop is unbounded); running out of fuel
is a modelling artifact and is reported with the `Other` kind, which the
Rust code never produces. -/
def receive_go (buf : List Nat) (sink : List Nat) (received : Nat) :
    Nat → Proc (Nat × List Nat)
  | 0 => throwErr ⟨.Other, "model out of fuel"⟩
  | f+1 => do
      let r ← receiveRetry buf 10
      if r.1 == 0 then
        pure (received, sink)
      else
        receive_go r.2 (sink ++ r.2) (received + r.1) f

/-- `Xmodem::receive` as a `Proc` program: the packet buffer starts as
`[0u8; 128]`, the sink starts empty. -/
def receive (fuel : Nat) : Proc (Nat × List Nat) :=
  receive_go (List.replicate 128 0) [] 0 fuel

/-! ### The scripted interpreter -/

/-- A scripted transport plus the engine state: `input` is the sequence
of bytes the transport will yield to reads (its end behaves as EOF,
i.e. `read_exact` fails with `UnexpectedEof`); `writeFaults` injects an
error into successive writes (`none`/exhausted = the write succeeds);
`output` collects the successfully written bytes; `events` collects the
progress events. -/
structure Machine where
  eng : EngState
  input : List Nat
  writeFaults : List (Option IOError)
  output : List Nat
  events : List Progress
deriving DecidableEq

/-- Run a program against a scripted transport.  The final machine is
returned also on failure (an early `return Err(..)` in Rust leaves
`self` and the transport in their current state). -/
def run : Proc α → Machine → Except IOError α × Machine
  | .pure a, m => (.ok a, m)
  | .fail e, m => (.error e, m)
  | .readB k, m =>
    match m.input with
    | [] => run (k none) m
    | b :: rest => run (k (some b)) { m with input := rest }
  | .writeB b k, m =>
    match m.writeFaults with
    | some e :: rest => run (k (some e)) { m with writeFaults := rest }
    | none :: rest => run (k none) { m with writeFaults := rest, output := m.output ++ [b] }
    | [] => run (k none) { m with output := m.output ++ [b] }
  | .emitP p k, m => run k { m with events := m.events ++ [p] }
  | .getSt k, m => run (k m.eng) m
  | .setSt s k, m => run k { m with eng := s }

def runResult (p : Proc α) (m : Machine) : Except IOError α := (run p m).1

def runMachine (p : Proc α) (m : Machine) : Machine := (run p m).2

/-! ### The coupled (loopback) interpreter -/

/-- A transmitter program and a receiver program coupled over a
loopback transport pair: `s2r` holds the bytes written by the sender
and not yet read by the receiver, `r2s` the converse. -/
structure Config where
  sender : Proc Nat
  sEng : EngState
  recv : Proc (Nat × List Nat)
  rEng : EngState
  s2r : List Nat
  r2s : List Nat

/-- One effect of one process against its incoming/outgoing queues:
`none` when the process is finished (`pure`/`fail`) or blocked on a
read from an empty queue (a blocking transport read with no data).
Writes over a loopback pipe always succeed. -/
def procStep (p : Proc α) (eng : EngState) (inc outq : List Nat) :
    Option (Proc α × EngState × List Nat × List Nat) :=
  match p with
  | .pure _ => none
  | .fail _ => none
  | .readB k =>
    match inc with
    | [] => none
    | b :: rest => some (k (some b), eng, rest, outq)
  | .writeB b k => some (k none, eng, inc, outq ++ [b])
  | .emitP _ k => some (k, eng, inc, outq)
  | .getSt k => some (k eng, eng, inc, outq)
  | .setSt s k => some (k, s, inc, outq)

/-- Deterministic scheduler for the coupled pair: step the sender while
it can make progress, otherwise step the receiver; stop when neither
can move (both finished or blocked) or the fuel runs out. -/
def runPair : Nat → Config → Config
  | 0, c => c
  | fuel+1, c =>
    match procStep c.sender c.sEng c.r2s c.s2r with
    | some (p, e, inc, outq) =>
      runPair fuel { c with sender := p, sEng := e, r2s := inc, s2r := outq }
    | none =>
      match procStep c.recv c.rEng c.s2r c.r2s with
      | some (p, e, inc, outq) =>
        runPair fuel { c with recv := p, rEng := e, s2r := inc, r2s := outq }
      | none => c

def Proc.isPure : Proc α → Bool
  | .pure _ => true
  | _ => false

def Proc.isReadB : Proc α → Bool
  | .readB _ => true
  | _ => false

/-- The engine state of a fresh `Xmodem::new`: `packet: 1, started: false`. -/
def newEng : EngState := ⟨1, false⟩

/-- `checksum = (checksum + b) % 256` folded over a byte list. -/
def chkFold (ck : Nat) (l : List Nat) : Nat := l.foldl (fun a b => (a + b) % 256) ck

/-- The checksum of a payload: the modulo-256 sum starting from 0. -/
def sum8 (l : List Nat) : Nat := chkFold 0 l

/-- Write `bytes` into `buf` at consecutive indices starting at `i`
(the net effect of the `read_packet` payload loop on the buffer). -/
def setSeq (buf : List Nat) (i : Nat) : List Nat → List Nat
  | [] => buf
  | b :: bs => setSeq (buf.set i b) (i+1) bs

/-- The 131 bytes `write_packet` puts on the wire for a data packet with
sequence number `s` — when the unchecked checksum write goes through. -/
def wire (s : Nat) (payload : List Nat) : List Nat :=
  [SOH, s, not8 s] ++ payload.take 127 ++ [sum8 (payload.take 127)]

/-! ### Interpreter lemmas -/

theorem bind_eq (x : Proc α) (f : α → Proc β) : x >>= f = Proc.bind x f := rfl

theorem run_pure (a : α) (m : Machine) : run (Proc.pure a) m = (.ok a, m) := rfl

theorem run_throwErr (e : IOError) (m : Machine) :
    run (throwErr e : Proc α) m = (.error e, m) := rfl

theorem run_bind (x : Proc α) (f : α → Proc β) (m : Machine) :
    run (Proc.bind x f) m =
      match run x m with
      | (Except.ok a, m') => run (f a) m'
      | (Except.error e, m') => (Except.error e, m') := by
  induction x generalizing m with
  | pure a => rfl
  | fail e => rfl
  | readB k ih =>
    show run (.readB fun b => (k b).bind f) m = _
    cases h : m.input with
    | nil => simp [run, h, ih]
    | cons b rest => simp [run, h, ih]
  | writeB b k ih =>
    show run (.writeB b fun r => (k r).bind f) m = _
    cases h : m.writeFaults with
    | nil => simp [run, h, ih]
    | cons o rest => cases o <;> simp [run, h, ih]
  | emitP p k ih =>
    show run (.emitP p (k.bind f)) m = _
    simp [run, ih]
  | getSt k ih =>
    show run (.getSt fun s => (k s).bind f) m = _
    simp [run, ih]
  | setSt s k ih =>
    show run (.setSt s (k.bind f)) m = _
    simp [run, ih]

theorem run_attempt (p : Proc α) (m : Machine) :
    run p.attempt m = (.ok (run p m).1, (run p m).2) := by
  induction p generalizing m with
  | pure a => rfl
  | fail e => rfl
  | readB k ih =>
    show run (.readB fun b => (k b).attempt) m = _
    cases h : m.input with
    | nil => simp [run, h, ih]
    | cons b rest => simp [run, h, ih]
  | writeB b k ih =>
    show run (.writeB b fun r => (k r).attempt) m = _
    cases h : m.writeFaults with
    | nil => simp [run, h, ih]
    | cons o rest => cases o <;> simp [run, h, ih]
  | emitP p k ih =>
    show run (.emitP p k.attempt) m = _
    simp [run, ih]
  | getSt k ih =>
    show run (.getSt fun s => (k s).attempt) m = _
    simp [run, ih]
  | setSt s k ih =>
    show run (.setSt s k.attempt) m = _
    simp [run, ih]

theorem run_read_byte (aoc : Bool) (m : Machine) :
    run (read_byte aoc) m =
      match m.input with
      | [] => (.error ⟨.UnexpectedEof, "failed to fill whole buffer"⟩, m)
      | b :: rest =>
        if aoc && b == CAN then
          (.error ⟨.ConnectionAborted, "received CAN"⟩, { m with input := rest })
        else
          (.ok b, { m with input := rest }) := by
  cases h : m.input with
  | nil => simp [read_byte, bind_eq, run_bind, readByteRaw, run, h]
  | cons b rest =>
    cases aoc with
    | false => simp [read_byte, bind_eq, run_bind, readByteRaw, run, h]
    | true =>
      by_cases hb : b = CAN
      · simp [read_byte, bind_eq, run_bind, readByteRaw, throwErr, run, h, hb]
      · simp [read_byte, bind_eq, run_bind, readByteRaw, throwErr, run, h, hb]

theorem run_write_byte (b : Nat) (m : Machine) :
    run (write_byte b) m =
      match m.writeFaults with
      | some e :: rest => (.error e, { m with writeFaults := rest })
      | none :: rest =>
        (.ok (), { m with writeFaults := rest, output := m.output ++ [b] })
      | [] => (.ok (), { m with output := m.output ++ [b] }) := by
  cases h : m.writeFaults with
  | nil => simp [write_byte, writeAllByte, run, h]
  | cons o rest => cases o <;> simp [write_byte, writeAllByte, run, h]

theorem run_writeByteDropped (b : Nat) (m : Machine) :
    run (writeByteDropped b) m =
      match m.writeFaults with
      | some _ :: rest => (.ok (), { m with writeFaults := rest })
      | none :: rest =>
        (.ok (), { m with writeFaults := rest, output := m.output ++ [b] })
      | [] => (.ok (), { m with output := m.output ++ [b] }) := by
  cases h : m.writeFaults with
  | nil => simp [writeByteDropped, run, h]
  | cons o rest => cases o <;> simp [writeByteDropped, run, h]

theorem run_emit (p : Progress) (m : Machine) :
    run (emit p) m = (.ok (), { m with events := m.events ++ [p] }) := rfl

theorem run_getEng (m : Machine) : run getEng m = (.ok m.eng, m) := rfl

theorem run_setEng (s : EngState) (m : Machine) :
    run (setEng s) m = (.ok (), { m with eng := s }) := rfl

theorem run_bind_ok {x : Proc α} {m m' : Machine} {a : α} (f : α → Proc β)
    (h : run x m = (.ok a, m')) : run (Proc.bind x f) m = run (f a) m' := by
  rw [run_bind, h]

theorem run_bind_error {x : Proc α} {m m' : Machine} {e : IOError} (f : α → Proc β)
    (h : run x m = (.error e, m')) : run (Proc.bind x f) m = (.error e, m') := by
  rw [run_bind, h]

theorem read_byte_eof (aoc : Bool) {m : Machine} (h : m.input = []) :
    run (read_byte aoc) m =
      (.error ⟨.UnexpectedEof, "failed to fill whole buffer"⟩, m) := by
  rw [run_read_byte, h]

theorem read_byte_ok {m : Machine} {b : Nat} {rest : List Nat} (aoc : Bool)
    (h : m.input = b :: rest) (hb : b ≠ CAN) :
    run (read_byte aoc) m = (.ok b, { m with input := rest }) := by
  rw [run_read_byte, h]
  cases aoc <;> simp [hb]

theorem read_byte_nocheck_ok {m : Machine} {b : Nat} {rest : List Nat}
    (h : m.input = b :: rest) :
    run (read_byte false) m = (.ok b, { m with input := rest }) := by
  rw [run_read_byte, h]; simp

theorem read_byte_can {m : Machine} {rest : List Nat}
    (h : m.input = CAN :: rest) :
    run (read_byte true) m =
      (.error ⟨.ConnectionAborted, "received CAN"⟩, { m with input := rest }) := by
  rw [run_read_byte, h]; simp

theorem write_byte_ok {m : Machine} (b : Nat) (h : m.writeFaults = []) :
    run (write_byte b) m = (.ok (), { m with output := m.output ++ [b] }) := by
  rw [run_write_byte, h]

theorem writeByteDropped_ok {m : Machine} (b : Nat) (h : m.writeFaults = []) :
    run (writeByteDropped b) m = (.ok (), { m with output := m.output ++ [b] }) := by
  rw [run_writeByteDropped, h]

/-! ### Payload-loop lemmas -/

/-- The `read_packet` payload loop, run on input starting with `fuel`
CAN-free bytes: it stores them in the buffer from index `i` on,
accumulates the modulo-256 checksum, and consumes exactly those bytes. -/
theorem run_read_payload_clean (bytes : List Nat) :
    ∀ (rest : List Nat) (i ck : Nat) (buf : List Nat) (m : Machine),
      m.input = bytes ++ rest → CAN ∉ bytes →
      run (read_payload i bytes.length buf ck) m =
        (.ok (setSeq buf i bytes, chkFold ck bytes), { m with input := rest }) := by
  induction bytes with
  | nil =>
    intro rest i ck buf m hin _
    show run (Proc.pure (buf, ck)) m = _
    rw [run_pure]
    simp only [List.nil_append] at hin
    cases m
    simp_all [setSeq, chkFold]
  | cons b bs ih =>
    intro rest i ck buf m hin hcan
    have hb : b ≠ CAN := fun h => hcan (h ▸ List.mem_cons_self b bs)
    have hbs : CAN ∉ bs := fun h => hcan (List.mem_cons_of_mem b h)
    show run (Proc.bind (read_byte true) _) m = _
    rw [run_bind_ok _ (read_byte_ok true (by rw [hin]; rfl) hb)]
    rw [ih rest (i+1) ((ck + b) % 256) (buf.set i b) _ rfl hbs]
    simp [setSeq, chkFold]

/-- All paths of the `read_packet` payload loop leave the engine state,
the write-fault script, the output and the events untouched (the loop
only reads). -/
theorem run_read_payload_frame (fuel : Nat) :
    ∀ (i ck : Nat) (buf : List Nat) (m : Machine),
      ((run (read_payload i fuel buf ck) m).2.eng = m.eng
        ∧ (run (read_payload i fuel buf ck) m).2.writeFaults = m.writeFaults)
      ∧ ((run (read_payload i fuel buf ck) m).2.output = m.output
        ∧ (run (read_payload i fuel buf ck) m).2.events = m.events) := by
  induction fuel with
  | zero => intro i ck buf m; exact ⟨⟨rfl, rfl⟩, rfl, rfl⟩
  | succ fuel ih =>
    intro i ck buf m
    have hstep : read_payload i (fuel+1) buf ck =
        Proc.bind (read_byte true)
          (fun b => read_payload (i+1) fuel (buf.set i b) ((ck + b) % 256)) := rfl
    rw [hstep]
    cases hin : m.input with
    | nil => rw [run_bind_error _ (read_byte_eof true hin)]; exact ⟨⟨rfl, rfl⟩, rfl, rfl⟩
    | cons b rest =>
      by_cases hb : b = CAN
      · subst hb
        rw [run_bind_error _ (read_byte_can hin)]
        exact ⟨⟨rfl, rfl⟩, rfl, rfl⟩
      · rw [run_bind_ok _ (read_byte_ok true hin hb)]
        exact ih (i+1) ((ck + b) % 256) (buf.set i b) _

/-- When the `read_packet` payload loop succeeds, the resulting buffer
has the same length as the original one and agrees with it from index
`i + fuel` on (the loop touches only indices `i, ..., i + fuel - 1`). -/
theorem run_read_payload_success_buf (fuel : Nat) :
    ∀ (i ck : Nat) (buf : List Nat) (m : Machine) (v : List Nat × Nat) (m' : Machine),
      run (read_payload i fuel buf ck) m = (.ok v, m') →
      v.1.length = buf.length ∧ v.1.drop (i + fuel) = buf.drop (i + fuel) := by
  induction fuel with
  | zero =>
    intro i ck buf m v m' h
    rw [show read_payload i 0 buf ck = Proc.pure (buf, ck) from rfl, run_pure] at h
    injection h with h1 h2
    injection h1 with h3
    subst h3
    exact ⟨rfl, rfl⟩
  | succ fuel ih =>
    intro i ck buf m v m' h
    rw [show read_payload i (fuel+1) buf ck =
        Proc.bind (read_byte true)
          (fun b => read_payload (i+1) fuel (buf.set i b) ((ck + b) % 256)) from rfl] at h
    cases hin : m.input with
    | nil =>
      rw [run_bind_error _ (read_byte_eof true hin)] at h
      exact absurd (congrArg Prod.fst h) (by simp)
    | cons b rest =>
      by_cases hb : b = CAN
      · subst hb
        rw [run_bind_error _ (read_byte_can hin)] at h
        exact absurd (congrArg Prod.fst h) (by simp)
      · rw [run_bind_ok _ (read_byte_ok true hin hb)] at h
        have hrec := ih (i+1) ((ck + b) % 256) (buf.set i b) _ v m' h
        refine ⟨by simpa [List.length_set] using hrec.1, ?_⟩
        have h2 := hrec.2
        rw [List.drop_set_of_lt _ _ (by omega)] at h2
        have hidx : i + 1 + fuel = i + (fuel + 1) := by omega
        rwa [hidx] at h2

/-- The `write_packet` payload loop on a fault-free transport: it puts
`buf[i], ..., buf[i+fuel-1]` on the wire and returns the accumulated
modulo-256 checksum. -/
theorem run_write_payload_clean (fuel : Nat) :
    ∀ (i ck : Nat) (buf : List Nat) (m : Machine),
      m.writeFaults = [] → i + fuel ≤ buf.length →
      run (write_payload i fuel buf ck) m =
        (.ok (chkFold ck ((buf.drop i).take fuel)),
          { m with output := m.output ++ (buf.drop i).take fuel }) := by
  induction fuel with
  | zero =>
    intro i ck buf m hwf _
    show run (Proc.pure ck) m = _
    rw [run_pure]
    cases m
    simp_all [chkFold]
  | succ fuel ih =>
    intro i ck buf m hwf hlen
    have hi : i < buf.length := by omega
    show run (Proc.bind (write_byte (buf.getD i 0)) _) m = _
    rw [run_bind_ok _ (write_byte_ok _ hwf)]
    rw [ih (i+1) ((ck + buf.getD i 0) % 256) buf
      { m with output := m.output ++ [buf.getD i 0] } hwf (by omega)]
    rw [List.getD_eq_getElem buf 0 hi]
    rw [List.drop_eq_getElem_cons hi, List.take_succ_cons]
    simp [chkFold]

/-- All paths of the `write_packet` payload loop leave the engine
state, the input script and the events untouched (the loop only
writes). -/
theorem run_write_payload_frame (fuel : Nat) :
    ∀ (i ck : Nat) (buf : List Nat) (m : Machine),
      ((run (write_payload i fuel buf ck) m).2.eng = m.eng
        ∧ (run (write_payload i fuel buf ck) m).2.input = m.input)
      ∧ (run (write_payload i fuel buf ck) m).2.events = m.events := by
  induction fuel with
  | zero => intro i ck buf m; exact ⟨⟨rfl, rfl⟩, rfl⟩
  | succ fuel ih =>
    intro i ck buf m
    have hstep : write_payload i (fuel+1) buf ck =
        Proc.bind (write_byte (buf.getD i 0))
          (fun _ => write_payload (i+1) fuel buf ((ck + buf.getD i 0) % 256)) := rfl
    rw [hstep]
    rcases hwf : m.writeFaults with _ | ⟨o, rest⟩
    · rw [run_bind_ok _ (write_byte_ok _ hwf)]
      exact ih (i+1) _ buf _
    · cases o with
      | none =>
        rw [run_bind_ok _ (by rw [run_write_byte, hwf])]
        exact ih (i+1) _ buf _
      | some e =>
        rw [run_bind_error _ (by rw [run_write_byte, hwf])]
        exact ⟨⟨rfl, rfl⟩, rfl⟩

/-- The checksum fold is the plain sum modulo 256. -/
theorem chkFold_eq_sum (l : List Nat) :
    ∀ a, a < 256 → chkFold a l = (a + l.sum) % 256 := by
  induction l with
  | nil => intro a ha; simp [chkFold, Nat.mod_eq_of_lt ha]
  | cons b bs ih =>
    intro a ha
    show chkFold ((a + b) % 256) bs = _
    rw [ih _ (Nat.mod_lt _ (by omega))]
    rw [Nat.mod_add_mod]
    simp [List.sum_cons, Nat.add_assoc]

/-- The checksum of a payload is its byte sum modulo 256 — the
"unsigned 8-bit sum with wraparound" of the spec. -/
theorem sum8_eq_sum (l : List Nat) : sum8 l = l.sum % 256 := by
  simpa using chkFold_eq_sum l 0 (by omega)

theorem pure_eq (a : α) : (pure a : Proc α) = Proc.pure a := rfl

/-- The `write_packet` payload loop as used by `write_packet` itself:
127 bytes, fault-free transport. -/
theorem run_write_payload_127 (buf : List Nat) (e : EngState) (inp out : List Nat)
    (ev : List Progress) (hlen : 127 ≤ buf.length) :
    run (write_payload 0 127 buf 0) ⟨e, inp, [], out, ev⟩ =
      (.ok (sum8 (buf.take 127)), ⟨e, inp, [], out ++ buf.take 127, ev⟩) := by
  rw [run_write_payload_clean 127 0 0 buf ⟨e, inp, [], out, ev⟩ rfl (by omega)]
  simp [sum8, List.drop_zero]

/-- The `read_packet` payload loop as used by `read_packet` itself: 127
CAN-free bytes at the head of the input. -/
theorem run_read_payload_127 (buf payload rest : List Nat) (e : EngState)
    (wf : List (Option IOError)) (out : List Nat) (ev : List Progress)
    (hp : payload.length = 127) (hpc : (24 : Nat) ∉ payload) :
    run (read_payload 0 127 buf 0) ⟨e, payload ++ rest, wf, out, ev⟩ =
      (.ok (setSeq buf 0 payload, sum8 payload), ⟨e, rest, wf, out, ev⟩) := by
  have h := run_read_payload_clean payload rest 0 0 buf
    ⟨e, payload ++ rest, wf, out, ev⟩ rfl hpc
  rw [hp] at h
  exact h

/-- Full characterization of `expect_byte` (which never writes). -/
theorem run_expect_byte (want : Nat) (msg : String) (m : Machine) :
    run (expect_byte want msg) m =
      match m.input with
      | [] => (.error ⟨.UnexpectedEof, "failed to fill whole buffer"⟩, m)
      | b :: rest =>
        if b = CAN then
          (.error ⟨.ConnectionAborted, "received CAN"⟩, { m with input := rest })
        else if want = b then
          (.ok b, { m with input := rest })
        else
          (.error ⟨.InvalidData, msg⟩, { m with input := rest }) := by
  cases hin : m.input with
  | nil =>
    simp only [expect_byte, bind_eq]
    rw [run_bind_error _ (read_byte_eof true hin)]
  | cons b rest =>
    by_cases hb : b = CAN
    · subst hb
      simp only [expect_byte, bind_eq]
      rw [run_bind_error _ (read_byte_can hin)]
      simp
    · simp only [expect_byte, bind_eq]
      rw [run_bind_ok _ (read_byte_ok true hin hb)]
      by_cases hw : want = b
      · simp [pure_eq, run_pure, hw, throwErr, run, hb]
      · simp [pure_eq, run_pure, hw, throwErr, run, hb]

/-- Full characterization of `expect_byte_or_cancel` (which writes a
CAN on any mismatch, and can therefore also fail on the write). -/
theorem run_expect_byte_or_cancel (want : Nat) (msg : String) (m : Machine) :
    run (expect_byte_or_cancel want msg) m =
      match m.input with
      | [] => (.error ⟨.UnexpectedEof, "failed to fill whole buffer"⟩, m)
      | b :: rest =>
        if want = b then
          (.ok want, { m with input := rest })
        else
          match ({ m with input := rest } : Machine).writeFaults with
          | some e :: wrest =>
            (.error e, { m with input := rest, writeFaults := wrest })
          | none :: wrest =>
            (.error (if b = CAN then ⟨.ConnectionAborted, "received CAN"⟩
                      else ⟨.InvalidData, msg⟩),
              { m with input := rest, writeFaults := wrest,
                       output := m.output ++ [CAN] })
          | [] =>
            (.error (if b = CAN then ⟨.ConnectionAborted, "received CAN"⟩
                      else ⟨.InvalidData, msg⟩),
              { m with input := rest, output := m.output ++ [CAN] }) := by
  cases hin : m.input with
  | nil =>
    simp only [expect_byte_or_cancel, bind_eq]
    rw [run_bind_error _ (read_byte_eof false hin)]
  | cons b rest =>
    simp only [expect_byte_or_cancel, bind_eq]
    rw [run_bind_ok _ (read_byte_nocheck_ok hin)]
    by_cases hw : want = b
    · simp [hw, pure_eq, run_pure]
    · by_cases hb : b = CAN
      · subst hb
        rcases hwf : m.writeFaults with _ | ⟨_ | e, wrest⟩ <;>
          simp [hw, bind_eq, pure_eq, run_bind, run_pure, run_write_byte, hwf,
            throwErr, run]
      · rcases hwf : m.writeFaults with _ | ⟨_ | e, wrest⟩ <;>
          simp [hw, hb, bind_eq, pure_eq, run_bind, run_pure, run_write_byte, hwf,
            throwErr, run]

/-! ### `write_packet` data-path characterizations (handshake already
done, fault-free transport, scripted echo bytes and response byte) -/

/-- A data packet whose response byte is `ACK`: the 131 wire bytes go
out, the sequence number is incremented (wrapping), and the call
returns `buf.len()`. -/
theorem write_packet_data_ack (buf : List Nat) (s x y : Nat) (rest out0 : List Nat)
    (ev0 : List Progress) (hlen : 128 ≤ buf.length) (hx : x ≠ CAN) (hy : y ≠ CAN) :
    run (write_packet buf) ⟨⟨s, true⟩, x :: y :: ACK :: rest, [], out0, ev0⟩ =
      (.ok buf.length,
        ⟨⟨wrapInc s, true⟩, rest, [], out0 ++ wire s buf, ev0 ++ [.Started, .Packet s]⟩) := by
  have h127 : 127 ≤ buf.length := by omega
  have hnl : ¬ buf.length < 128 := by omega
  have hne : buf ≠ [] := by intro h; rw [h] at hlen; simp at hlen
  have hx' : x ≠ 24 := hx
  have hy' : y ≠ 24 := hy
  simp [write_packet, bind_eq, pure_eq, run_bind, run_getEng, run_pure, run_emit,
    run_setEng, run_read_byte, run_write_byte, run_writeByteDropped,
    run_write_payload_127, h127, hnl, hne, hx', hy',
    wire, not8, wrapInc, CAN, ACK, NAK, SOH, EOT]

/-- A data packet whose response byte is `NAK`: the 131 wire bytes go
out, the call fails with the `Interrupted` ("checksum failed") error and
the sequence number is left unchanged. -/
theorem write_packet_data_nak (buf : List Nat) (s x y : Nat) (rest out0 : List Nat)
    (ev0 : List Progress) (hlen : 128 ≤ buf.length) (hx : x ≠ CAN) (hy : y ≠ CAN) :
    run (write_packet buf) ⟨⟨s, true⟩, x :: y :: NAK :: rest, [], out0, ev0⟩ =
      (.error ⟨.Interrupted, "checksum failed"⟩,
        ⟨⟨s, true⟩, rest, [], out0 ++ wire s buf, ev0 ++ [.Started]⟩) := by
  have h127 : 127 ≤ buf.length := by omega
  have hnl : ¬ buf.length < 128 := by omega
  have hne : buf ≠ [] := by intro h; rw [h] at hlen; simp at hlen
  have hx' : x ≠ 24 := hx
  have hy' : y ≠ 24 := hy
  simp [write_packet, bind_eq, pure_eq, run_bind, run_getEng, run_pure, run_emit,
    run_setEng, run_read_byte, run_write_byte, run_writeByteDropped,
    run_write_payload_127, run_throwErr, h127, hnl, hne, hx', hy',
    wire, not8, wrapInc, CAN, ACK, NAK, SOH, EOT]

/-- A data packet whose response byte is neither `ACK`, `NAK` nor
`CAN`: the call fails with `InvalidData` and the sequence number is
left unchanged. -/
theorem write_packet_data_other (buf : List Nat) (s x y d : Nat) (rest out0 : List Nat)
    (ev0 : List Progress) (hlen : 128 ≤ buf.length) (hx : x ≠ CAN) (hy : y ≠ CAN)
    (hd1 : d ≠ ACK) (hd2 : d ≠ NAK) (hd3 : d ≠ CAN) :
    run (write_packet buf) ⟨⟨s, true⟩, x :: y :: d :: rest, [], out0, ev0⟩ =
      (.error ⟨.InvalidData, "expected ACK or NAK"⟩,
        ⟨⟨s, true⟩, rest, [], out0 ++ wire s buf, ev0 ++ [.Started]⟩) := by
  have h127 : 127 ≤ buf.length := by omega
  have hnl : ¬ buf.length < 128 := by omega
  have hne : buf ≠ [] := by intro h; rw [h] at hlen; simp at hlen
  have hx' : x ≠ 24 := hx
  have hy' : y ≠ 24 := hy
  have hd1' : d ≠ 6 := hd1
  have hd2' : d ≠ 21 := hd2
  have hd3' : d ≠ 24 := hd3
  simp [write_packet, bind_eq, pure_eq, run_bind, run_getEng, run_pure, run_emit,
    run_setEng, run_read_byte, run_write_byte, run_writeByteDropped,
    run_write_payload_127, run_throwErr, h127, hnl, hne, hx', hy', hd1', hd2', hd3',
    wire, not8, wrapInc, CAN, ACK, NAK, SOH, EOT]


set_option maxHeartbeats 1000000 in
/-- Full characterization of a `read_packet` data-packet exchange from
a started engine over a fault-free transport: wire sequence byte `w`,
complement byte `cmp`, 127 CAN-free payload bytes and checksum byte
`c`.  A sequence-number mismatch writes `CAN` but the exchange
continues; the packet is accepted (ACK, sequence incremented, 128
returned) exactly when `c` is the modulo-256 payload sum, and otherwise
NAK goes out and the call fails with `Interrupted`. -/
theorem read_packet_data_run (buf payload : List Nat) (s w cmp c : Nat)
    (rest out0 : List Nat) (ev0 : List Progress)
    (hbuf : 128 ≤ buf.length) (hp : payload.length = 127) (hpc : (24 : Nat) ∉ payload)
    (hw : w ≠ CAN) (hcmp : cmp ≠ CAN) (hc : c ≠ CAN) :
    run (read_packet buf)
      ⟨⟨s, true⟩, SOH :: w :: cmp :: (payload ++ c :: rest), [], out0, ev0⟩ =
      (if c = sum8 payload then
          (.ok (128, setSeq buf 0 payload),
            ⟨⟨wrapInc s, true⟩, rest, [],
              out0 ++ ((if w = s then [] else [CAN])
                ++ (if cmp = not8 s then [] else [CAN])) ++ [ACK],
              ev0 ++ [.Packet s]⟩)
        else
          (.error ⟨.Interrupted, "checksum failed"⟩,
            ⟨⟨s, true⟩, rest, [],
              out0 ++ ((if w = s then [] else [CAN])
                ++ (if cmp = not8 s then [] else [CAN])) ++ [NAK],
              ev0⟩)) := by
  have hnl : ¬ buf.length < 128 := by omega
  have hw' : w ≠ 24 := hw
  have hcmp' : cmp ≠ 24 := hcmp
  have hc' : c ≠ 24 := hc
  by_cases h1 : w = s
  · subst h1
    by_cases h2 : cmp = not8 w
    · subst h2
      have k2 : 255 - w % 256 ≠ 24 := hcmp'
      by_cases h3 : c = sum8 payload
      · subst h3
        simp [read_packet, read_packet_tail, bind_eq, pure_eq, run_bind, run_getEng, run_pure, run_emit,
          run_setEng, run_read_byte, run_write_byte, run_throwErr,
          run_read_payload_127, hnl, hp, hpc, hw', hc', k2,
          not8, wrapInc, CAN, ACK, NAK, SOH, EOT]
      · have h3s : sum8 payload ≠ c := fun hh => h3 hh.symm
        simp [read_packet, read_packet_tail, bind_eq, pure_eq, run_bind, run_getEng, run_pure, run_emit,
          run_setEng, run_read_byte, run_write_byte, run_throwErr,
          run_read_payload_127, hnl, hp, hpc, hw', hc', k2, h3, h3s,
          not8, wrapInc, CAN, ACK, NAK, SOH, EOT]
    · have h2n : cmp ≠ 255 - w % 256 := h2
      by_cases h3 : c = sum8 payload
      · subst h3
        simp [read_packet, read_packet_tail, bind_eq, pure_eq, run_bind, run_getEng, run_pure, run_emit,
          run_setEng, run_read_byte, run_write_byte, run_throwErr,
          run_read_payload_127, hnl, hp, hpc, hw', hcmp', hc', h2, h2n,
          not8, wrapInc, CAN, ACK, NAK, SOH, EOT]
      · have h3s : sum8 payload ≠ c := fun hh => h3 hh.symm
        simp [read_packet, read_packet_tail, bind_eq, pure_eq, run_bind, run_getEng, run_pure, run_emit,
          run_setEng, run_read_byte, run_write_byte, run_throwErr,
          run_read_payload_127, hnl, hp, hpc, hw', hcmp', hc', h2, h2n, h3, h3s,
          not8, wrapInc, CAN, ACK, NAK, SOH, EOT]
  · by_cases h2 : cmp = not8 s
    · subst h2
      have k2 : 255 - s % 256 ≠ 24 := hcmp'
      by_cases h3 : c = sum8 payload
      · subst h3
        simp [read_packet, read_packet_tail, bind_eq, pure_eq, run_bind, run_getEng, run_pure, run_emit,
          run_setEng, run_read_byte, run_write_byte, run_throwErr,
          run_read_payload_127, hnl, hp, hpc, hw', hc', h1, k2,
          not8, wrapInc, CAN, ACK, NAK, SOH, EOT]
      · have h3s : sum8 payload ≠ c := fun hh => h3 hh.symm
        simp [read_packet, read_packet_tail, bind_eq, pure_eq, run_bind, run_getEng, run_pure, run_emit,
          run_setEng, run_read_byte, run_write_byte, run_throwErr,
          run_read_payload_127, hnl, hp, hpc, hw', hc', h1, k2, h3, h3s,
          not8, wrapInc, CAN, ACK, NAK, SOH, EOT]
    · have h2n : cmp ≠ 255 - s % 256 := h2
      by_cases h3 : c = sum8 payload
      · subst h3
        simp [read_packet, read_packet_tail, bind_eq, pure_eq, run_bind, run_getEng, run_pure, run_emit,
          run_setEng, run_read_byte, run_write_byte, run_throwErr,
          run_read_payload_127, hnl, hp, hpc, hw', hcmp', hc', h1, h2, h2n,
          not8, wrapInc, CAN, ACK, NAK, SOH, EOT]
      · have h3s : sum8 payload ≠ c := fun hh => h3 hh.symm
        simp [read_packet, read_packet_tail, bind_eq, pure_eq, run_bind, run_getEng, run_pure, run_emit,
          run_setEng, run_read_byte, run_write_byte, run_throwErr,
          run_read_payload_127, hnl, hp, hpc, hw', hcmp', hc', h1, h2, h2n, h3, h3s,
          not8, wrapInc, CAN, ACK, NAK, SOH, EOT]




def okPos : Except IOError Nat → Bool
  | .ok n => n != 0
  | .error _ => false

def okData : Except IOError (Nat × List Nat) → Bool
  | .ok v => v.1 != 0
  | .error _ => false

/-- Outcome dichotomy for `read_byte`: it either fails or returns some
byte; either way the engine fields are untouched. -/
theorem read_byte_cases (aoc : Bool) (m : Machine) :
    (∃ e m', run (read_byte aoc) m = (.error e, m') ∧ m'.eng = m.eng)
    ∨ (∃ b m', run (read_byte aoc) m = (.ok b, m') ∧ m'.eng = m.eng) := by
  rcases hr : run (read_byte aoc) m with ⟨r, m2⟩
  have heng : m2.eng = m.eng := by
    rw [run_read_byte] at hr
    cases hin : m.input with
    | nil => rw [hin] at hr; dsimp only at hr; injection hr with _ h2; rw [h2]
    | cons b rest =>
      rw [hin] at hr
      dsimp only at hr
      by_cases hb : (aoc && b == CAN) = true
      · rw [if_pos hb] at hr; injection hr with _ h2; rw [← h2]
      · rw [if_neg hb] at hr; injection hr with _ h2; rw [← h2]
  cases r with
  | error e => exact .inl ⟨e, m2, rfl, heng⟩
  | ok b => exact .inr ⟨b, m2, rfl, heng⟩

/-- Outcome dichotomy for `write_byte`: engine fields untouched. -/
theorem write_byte_cases (b : Nat) (m : Machine) :
    (∃ e m', run (write_byte b) m = (.error e, m') ∧ m'.eng = m.eng)
    ∨ (∃ m', run (write_byte b) m = (.ok (), m') ∧ m'.eng = m.eng) := by
  rcases hr : run (write_byte b) m with ⟨r, m2⟩
  have heng : m2.eng = m.eng := by
    rw [run_write_byte] at hr
    rcases hwf : m.writeFaults with _ | ⟨_ | e, wrest⟩ <;>
      · rw [hwf] at hr; dsimp only at hr; injection hr with _ h2; rw [← h2]
  cases r with
  | error e => exact .inl ⟨e, m2, rfl, heng⟩
  | ok u =>
    refine .inr ⟨m2, ?_, heng⟩
    cases u
    rfl

/-- `writeByteDropped` always "succeeds" (the `io::Result` is
discarded); engine fields untouched. -/
theorem writeByteDropped_cases (b : Nat) (m : Machine) :
    ∃ m', run (writeByteDropped b) m = (.ok (), m') ∧ m'.eng = m.eng := by
  rcases hwf : m.writeFaults with _ | ⟨_ | e, wrest⟩
  · exact ⟨{ m with output := m.output ++ [b] },
      by rw [run_writeByteDropped, hwf], rfl⟩
  · exact ⟨{ m with writeFaults := wrest, output := m.output ++ [b] },
      by rw [run_writeByteDropped, hwf], rfl⟩
  · exact ⟨{ m with writeFaults := wrest },
      by rw [run_writeByteDropped, hwf], rfl⟩

/-- Outcome dichotomy for `expect_byte`: on success it returns exactly
the wanted byte; engine fields untouched either way. -/
theorem expect_byte_cases (want : Nat) (msg : String) (m : Machine) :
    (∃ e m', run (expect_byte want msg) m = (.error e, m') ∧ m'.eng = m.eng)
    ∨ (∃ m', run (expect_byte want msg) m = (.ok want, m') ∧ m'.eng = m.eng) := by
  rcases hr : run (expect_byte want msg) m with ⟨r, m2⟩
  have hch := run_expect_byte want msg m
  rw [hr] at hch
  cases hin : m.input with
  | nil =>
    rw [hin] at hch
    dsimp only at hch
    injection hch.symm with h1 h2
    subst h1
    exact .inl ⟨_, m2, rfl, by rw [← h2]⟩
  | cons b rest =>
    rw [hin] at hch
    dsimp only at hch
    by_cases hb : b = CAN
    · rw [if_pos hb] at hch
      injection hch.symm with h1 h2
      subst h1
      exact .inl ⟨_, m2, rfl, by rw [← h2]⟩
    · rw [if_neg hb] at hch
      by_cases hw : want = b
      · rw [if_pos hw] at hch
        injection hch.symm with h1 h2
        subst h1
        refine .inr ⟨m2, ?_, by rw [← h2]⟩
        rw [hw]
      · rw [if_neg hw] at hch
        injection hch.symm with h1 h2
        subst h1
        exact .inl ⟨_, m2, rfl, by rw [← h2]⟩

/-- `emit` always succeeds and leaves the engine fields untouched. -/
theorem emit_cases (p : Progress) (m : Machine) :
    ∃ m', run (emit p) m = (.ok (), m') ∧ m'.eng = m.eng :=
  ⟨_, run_emit p m, rfl⟩

/-- Outcome dichotomy for the `write_packet` payload loop. -/
theorem write_payload_cases (i fuel ck : Nat) (bufl : List Nat) (m : Machine) :
    (∃ e m', run (write_payload i fuel bufl ck) m = (.error e, m') ∧ m'.eng = m.eng)
    ∨ (∃ ckv m', run (write_payload i fuel bufl ck) m = (.ok ckv, m') ∧ m'.eng = m.eng) := by
  have hf := run_write_payload_frame fuel i ck bufl m
  rcases hr : run (write_payload i fuel bufl ck) m with ⟨r, m2⟩
  rw [hr] at hf
  cases r with
  | error e => exact .inl ⟨e, m2, rfl, hf.1.1⟩
  | ok ckv => exact .inr ⟨ckv, m2, rfl, hf.1.1⟩

/-- Outcome dichotomy for the `read_packet` payload loop; on success
the buffer keeps its length and its tail from index `i + fuel` on. -/
theorem read_payload_cases (i fuel : Nat) (bufl : List Nat) (ck : Nat) (m : Machine) :
    (∃ e m', run (read_payload i fuel bufl ck) m = (.error e, m') ∧ m'.eng = m.eng)
    ∨ (∃ v m', run (read_payload i fuel bufl ck) m = (.ok v, m') ∧ m'.eng = m.eng
        ∧ v.1.length = bufl.length ∧ v.1.drop (i + fuel) = bufl.drop (i + fuel)) := by
  have hf := run_read_payload_frame fuel i ck bufl m
  rcases hr : run (read_payload i fuel bufl ck) m with ⟨r, m2⟩
  rw [hr] at hf
  cases r with
  | error e => exact .inl ⟨e, m2, rfl, hf.1.1⟩
  | ok v =>
    have hb := run_read_payload_success_buf fuel i ck bufl m v m2 hr
    exact .inr ⟨v, m2, rfl, hf.1.1, hb.1, hb.2⟩

theorem write_packet_facts_started (buf : List Nat) (m : Machine)
    (hst : m.eng.started = true) :
    ((run (write_packet buf) m).2.eng.packet =
      if okPos (run (write_packet buf) m).1 then wrapInc m.eng.packet
      else m.eng.packet)
    ∧ (buf = [] → ∀ n, (run (write_packet buf) m).1 = .ok n →
        (run (write_packet buf) m).2.eng.started = false) := by
  rcases hrun : run (write_packet buf) m with ⟨r, m2⟩
  simp only [write_packet, bind_eq, pure_eq] at hrun
  split at hrun
  · -- guard: buffer too small and nonempty
    rw [run_throwErr] at hrun
    injection hrun with h1 h2
    subst h1; subst h2
    exact ⟨by simp [okPos], fun h n hn => by cases hn⟩
  · rw [run_bind_ok _ (run_getEng m)] at hrun
    rw [hst] at hrun
    rw [if_neg (by simp)] at hrun
    rw [run_bind_ok _ (run_pure _ m)] at hrun
    by_cases hne : buf = []
    · -- end-of-transfer path
      rw [if_neg (by simp [hne])] at hrun
      rcases write_byte_cases EOT m with ⟨e, mE, heq, hE⟩ | ⟨mA, heqA, hEA⟩
      · rw [run_bind_error _ heq] at hrun
        injection hrun with h1 h2
        subst h1; subst h2
        exact ⟨by simp [okPos, hE], fun h n hn => nomatch hn⟩
      · rw [run_bind_ok _ heqA] at hrun
        rcases expect_byte_cases NAK "expected NAK to end the transmission" mA with
          ⟨e, mE, heq, hE⟩ | ⟨mB, heqB, hEB⟩
        · rw [run_bind_error _ heq] at hrun
          injection hrun with h1 h2
          subst h1; subst h2
          exact ⟨by simp [okPos, hE, hEA], fun h n hn => nomatch hn⟩
        · rw [run_bind_ok _ heqB] at hrun
          rcases write_byte_cases EOT mB with ⟨e, mE, heq, hE⟩ | ⟨mC, heqC, hEC⟩
          · rw [run_bind_error _ heq] at hrun
            injection hrun with h1 h2
            subst h1; subst h2
            exact ⟨by simp [okPos, hE, hEB, hEA], fun h n hn => nomatch hn⟩
          · rw [run_bind_ok _ heqC] at hrun
            rcases expect_byte_cases ACK "expected ACK to end the transmission" mC with
              ⟨e, mE, heq, hE⟩ | ⟨mD, heqD, hED⟩
            · rw [run_bind_error _ heq] at hrun
              injection hrun with h1 h2
              subst h1; subst h2
              exact ⟨by simp [okPos, hE, hEC, hEB, hEA], fun h n hn => nomatch hn⟩
            · rw [run_bind_ok _ heqD] at hrun
              rw [run_bind_ok _ (run_getEng mD)] at hrun
              rw [run_bind_ok _ (run_setEng _ mD)] at hrun
              rw [run_pure] at hrun
              injection hrun with h1 h2
              subst h1; subst h2
              refine ⟨by simp [okPos, hED, hEC, hEB, hEA], fun h n hn => by simp⟩
    · -- data-packet path
      rw [if_pos (by simp [hne, List.length_eq_zero])] at hrun
      rw [run_bind_ok _ (run_getEng m)] at hrun
      rcases write_byte_cases SOH m with ⟨e, mE, heq, hE⟩ | ⟨mA, heqA, hEA⟩
      · rw [run_bind_error _ heq] at hrun
        injection hrun with h1 h2
        subst h1; subst h2
        exact ⟨by simp [okPos, hE], fun h _ _ => absurd h hne⟩
      · rw [run_bind_ok _ heqA] at hrun
        rcases write_byte_cases m.eng.packet mA with ⟨e, mE, heq, hE⟩ | ⟨mB, heqB, hEB⟩
        · rw [run_bind_error _ heq] at hrun
          injection hrun with h1 h2
          subst h1; subst h2
          exact ⟨by simp [okPos, hE, hEA], fun h _ _ => absurd h hne⟩
        · rw [run_bind_ok _ heqB] at hrun
          rcases read_byte_cases true mB with ⟨e, mE, heq, hE⟩ | ⟨b1, mC, heqC, hEC⟩
          · rw [run_bind_error _ heq] at hrun
            injection hrun with h1 h2
            subst h1; subst h2
            exact ⟨by simp [okPos, hE, hEB, hEA], fun h _ _ => absurd h hne⟩
          · rw [run_bind_ok _ heqC] at hrun
            rcases write_byte_cases (not8 m.eng.packet) mC with
              ⟨e, mE, heq, hE⟩ | ⟨mD, heqD, hED⟩
            · rw [run_bind_error _ heq] at hrun
              injection hrun with h1 h2
              subst h1; subst h2
              exact ⟨by simp [okPos, hE, hEC, hEB, hEA], fun h _ _ => absurd h hne⟩
            · rw [run_bind_ok _ heqD] at hrun
              rcases read_byte_cases true mD with ⟨e, mE, heq, hE⟩ | ⟨b2, mF, heqF, hEF⟩
              · rw [run_bind_error _ heq] at hrun
                injection hrun with h1 h2
                subst h1; subst h2
                exact ⟨by simp [okPos, hE, hED, hEC, hEB, hEA], fun h _ _ => absurd h hne⟩
              · rw [run_bind_ok _ heqF] at hrun
                obtain ⟨mG, heqG, hEG⟩ := emit_cases .Started mF
                rw [run_bind_ok _ heqG] at hrun
                rcases write_payload_cases 0 127 0 buf mG with
                  ⟨e, mE, heq, hE⟩ | ⟨ckv, mH, heqH, hEH⟩
                · rw [run_bind_error _ heq] at hrun
                  injection hrun with h1 h2
                  subst h1; subst h2
                  exact ⟨by simp [okPos, hE, hEG, hEF, hED, hEC, hEB, hEA],
                    fun h _ _ => absurd h hne⟩
                · rw [run_bind_ok _ heqH] at hrun
                  obtain ⟨mI, heqI, hEI⟩ := writeByteDropped_cases ckv mH
                  rw [run_bind_ok _ heqI] at hrun
                  rcases read_byte_cases true mI with
                    ⟨e, mE, heq, hE⟩ | ⟨done, mJ, heqJ, hEJ⟩
                  · rw [run_bind_error _ heq] at hrun
                    injection hrun with h1 h2
                    subst h1; subst h2
                    exact ⟨by simp [okPos, hE, hEI, hEH, hEG, hEF, hED, hEC, hEB, hEA],
                      fun h _ _ => absurd h hne⟩
                  · rw [run_bind_ok _ heqJ] at hrun
                    by_cases hd : done = ACK
                    · rw [if_pos (by simp [hd])] at hrun
                      rw [run_bind_ok _ (run_getEng mJ)] at hrun
                      obtain ⟨mK, heqK, hEK⟩ := emit_cases (.Packet mJ.eng.packet) mJ
                      rw [run_bind_ok _ heqK] at hrun
                      rw [run_bind_ok _ (run_setEng _ mK)] at hrun
                      rw [run_pure] at hrun
                      injection hrun with h1 h2
                      subst h1; subst h2
                      constructor
                      · simp [okPos, hne, List.length_eq_zero, hEK, hEJ, hEI, hEH,
                          hEG, hEF, hED, hEC, hEB, hEA]
                      · exact fun h _ _ => absurd h hne
                    · rw [if_neg (by simp [hd])] at hrun
                      by_cases hd2 : done = NAK
                      · rw [if_pos (by simp [hd2])] at hrun
                        rw [run_throwErr] at hrun
                        injection hrun with h1 h2
                        subst h1; subst h2
                        exact ⟨by simp [okPos, hEJ, hEI, hEH, hEG, hEF, hED, hEC, hEB, hEA],
                          fun h _ _ => absurd h hne⟩
                      · rw [if_neg (by simp [hd2])] at hrun
                        rw [run_throwErr] at hrun
                        injection hrun with h1 h2
                        subst h1; subst h2
                        exact ⟨by simp [okPos, hEJ, hEI, hEH, hEG, hEF, hED, hEC, hEB, hEA],
                          fun h _ _ => absurd h hne⟩



/-- Facts about `read_packet_tail` for an arbitrary machine: the
sequence number either stays or is wrapping-incremented; it is
incremented whenever the call succeeds; a success always returns 128
with a buffer of unchanged length whose tail from index 127 on is the
original one's. -/
theorem read_packet_tail_facts (buf : List Nat) (m : Machine) :
    ((okData (run (read_packet_tail buf) m).1 = true →
        (run (read_packet_tail buf) m).2.eng.packet = wrapInc m.eng.packet)
      ∧ ((run (read_packet_tail buf) m).2.eng.packet = m.eng.packet
          ∨ (run (read_packet_tail buf) m).2.eng.packet = wrapInc m.eng.packet))
    ∧ ((run (read_packet_tail buf) m).2.eng.started = m.eng.started)
    ∧ (∀ n b2, (run (read_packet_tail buf) m).1 = .ok (n, b2) →
        n = 128 ∧ b2.length = buf.length ∧ b2.drop 127 = buf.drop 127) := by
  rcases hrun : run (read_packet_tail buf) m with ⟨r, m2⟩
  simp only [read_packet_tail, bind_eq, pure_eq] at hrun
  rcases read_payload_cases 0 127 buf 0 m with ⟨e, mE, heq, hE⟩ | ⟨v, mA, heqA, hEA, hvl, hvd⟩
  · rw [run_bind_error _ heq] at hrun
    injection hrun with h1 h2
    subst h1; subst h2
    exact ⟨⟨fun h => by simp [okData] at h, .inl (by rw [hE])⟩,
      by rw [hE], fun n b2 hn => nomatch hn⟩
  · rw [run_bind_ok _ heqA] at hrun
    rcases read_byte_cases true mA with ⟨e, mE, heq, hE⟩ | ⟨c, mB, heqB, hEB⟩
    · rw [run_bind_error _ heq] at hrun
      injection hrun with h1 h2
      subst h1; subst h2
      exact ⟨⟨fun h => by simp [okData] at h, .inl (by rw [hE, hEA])⟩,
        by rw [hE, hEA], fun n b2 hn => nomatch hn⟩
    · rw [run_bind_ok _ heqB] at hrun
      by_cases hck : (v.2 != c) = true
      · rw [if_pos hck] at hrun
        rcases write_byte_cases NAK mB with ⟨e, mE, heq, hE⟩ | ⟨mC, heqC, hEC⟩
        · rw [run_bind_error _ heq] at hrun
          injection hrun with h1 h2
          subst h1; subst h2
          exact ⟨⟨fun h => by simp [okData] at h, .inl (by rw [hE, hEB, hEA])⟩,
            by rw [hE, hEB, hEA], fun n b2 hn => nomatch hn⟩
        · rw [run_bind_ok _ heqC, run_throwErr] at hrun
          injection hrun with h1 h2
          subst h1; subst h2
          exact ⟨⟨fun h => by simp [okData] at h, .inl (by rw [hEC, hEB, hEA])⟩,
            by rw [hEC, hEB, hEA], fun n b2 hn => nomatch hn⟩
      · rw [if_neg hck] at hrun
        rw [run_bind_ok _ (run_getEng mB)] at hrun
        obtain ⟨mC, heqC, hEC⟩ := emit_cases (.Packet mB.eng.packet) mB
        rw [run_bind_ok _ heqC] at hrun
        rw [run_bind_ok _ (run_setEng _ mC)] at hrun
        rcases write_byte_cases ACK
            { mC with eng := ⟨wrapInc mB.eng.packet, mB.eng.started⟩ } with
          ⟨e, mE, heq, hE⟩ | ⟨mD, heqD, hED⟩
        · rw [run_bind_error _ heq] at hrun
          injection hrun with h1 h2
          subst h1; subst h2
          refine ⟨⟨fun h => by simp [okData] at h, .inr ?_⟩, ?_, fun n b2 hn => nomatch hn⟩
          · rw [hE]; simp [hEB, hEA]
          · rw [hE]; simp [hEB, hEA]
        · rw [run_bind_ok _ heqD, run_pure] at hrun
          injection hrun with h1 h2
          subst h1; subst h2
          refine ⟨⟨fun h => ?_, .inr ?_⟩, ?_, fun n b2 hn => ?_⟩
          · rw [hED]; simp [hEB, hEA]
          · rw [hED]; simp [hEB, hEA]
          · rw [hED]; simp [hEB, hEA]
          · injection hn with hn2
            injection hn2 with hn3 hn4
            subst hn3; subst hn4
            exact ⟨rfl, hvl, by simpa using hvd⟩



theorem read_packet_facts_started (buf : List Nat) (m : Machine)
    (hst : m.eng.started = true) :
    ((okData (run (read_packet buf) m).1 = true →
        (run (read_packet buf) m).2.eng.packet = wrapInc m.eng.packet)
      ∧ ((run (read_packet buf) m).2.eng.packet = m.eng.packet
          ∨ (run (read_packet buf) m).2.eng.packet = wrapInc m.eng.packet))
    ∧ (∀ b2, (run (read_packet buf) m).1 = .ok (0, b2) →
        (run (read_packet buf) m).2.eng.started = true)
    ∧ (∀ n b2, (run (read_packet buf) m).1 = .ok (n, b2) → n ≠ 0 →
        n = 128 ∧ b2.length = buf.length ∧ b2.drop 127 = buf.drop 127) := by
  rcases hrun : run (read_packet buf) m with ⟨r, m2⟩
  simp only [read_packet, bind_eq, pure_eq] at hrun
  split at hrun
  · rw [run_throwErr] at hrun
    injection hrun with h1 h2
    subst h1; subst h2
    exact ⟨⟨fun h => by simp [okData] at h, .inl rfl⟩,
      fun b2 hn => by simp at hn, fun n b2 hn => by simp at hn⟩
  · rw [run_bind_ok _ (run_getEng m)] at hrun
    rw [hst] at hrun
    rw [if_neg (by simp)] at hrun
    rw [run_bind_ok _ (run_pure _ m)] at hrun
    rcases read_byte_cases true m with ⟨e, mE, heq, hE⟩ | ⟨byte, mA, heqA, hEA⟩
    · rw [run_bind_error _ heq] at hrun
      injection hrun with h1 h2
      subst h1; subst h2
      exact ⟨⟨fun h => by simp [okData] at h, .inl (by rw [hE])⟩,
        fun b2 hn => by simp at hn, fun n b2 hn => by simp at hn⟩
    · rw [run_bind_ok _ heqA] at hrun
      by_cases hS : (byte == SOH) = true
      · rw [if_pos hS] at hrun
        rw [run_bind_ok _ (run_getEng mA)] at hrun
        rcases read_byte_cases true mA with ⟨e, mE, heq, hE⟩ | ⟨b1, mB, heqB, hEB⟩
        · rw [run_bind_error _ heq] at hrun
          injection hrun with h1 h2
          subst h1; subst h2
          exact ⟨⟨fun h => by simp [okData] at h, .inl (by rw [hE, hEA])⟩,
            fun b2 hn => by simp at hn, fun n b2 hn => by simp at hn⟩
        · rw [run_bind_ok _ heqB] at hrun
          by_cases hb1 : (b1 != mA.eng.packet) = true
          · rw [if_pos hb1] at hrun
            rcases write_byte_cases CAN mB with ⟨e, mE, heq, hE⟩ | ⟨mC, heqC, hEC⟩
            · rw [run_bind_error _ heq] at hrun
              injection hrun with h1 h2
              subst h1; subst h2
              exact ⟨⟨fun h => by simp [okData] at h, .inl (by rw [hE, hEB, hEA])⟩,
                fun b2 hn => by simp at hn, fun n b2 hn => by simp at hn⟩
            · rw [run_bind_ok _ heqC] at hrun
              rcases read_byte_cases true mC with ⟨e, mE, heq, hE⟩ | ⟨b2v, mD, heqD, hED⟩
              · rw [run_bind_error _ heq] at hrun
                injection hrun with h1 h2
                subst h1; subst h2
                exact ⟨⟨fun h => by simp [okData] at h,
                  .inl (by rw [hE, hEC, hEB, hEA])⟩,
                  fun b2 hn => by simp at hn, fun n b2 hn => by simp at hn⟩
              · rw [run_bind_ok _ heqD] at hrun
                by_cases hb2 : (b2v != not8 mA.eng.packet) = true
                · rw [if_pos hb2] at hrun
                  rcases write_byte_cases CAN mD with ⟨e, mE, heq, hE⟩ | ⟨mF, heqF, hEF⟩
                  · rw [run_bind_error _ heq] at hrun
                    injection hrun with h1 h2
                    subst h1; subst h2
                    exact ⟨⟨fun h => by simp [okData] at h,
                      .inl (by rw [hE, hED, hEC, hEB, hEA])⟩,
                      fun b2 hn => by simp at hn, fun n b2 hn => by simp at hn⟩
                  · rw [run_bind_ok _ heqF] at hrun
                    have ht := read_packet_tail_facts buf mF
                    rw [hrun] at ht
                    have hch : mF.eng = m.eng := by rw [hEF, hED, hEC, hEB, hEA]
                    refine ⟨⟨fun h => by rw [ht.1.1 h, hch], ?_⟩,
                      fun b2 h => absurd (ht.2.2 0 b2 h).1 (by decide),
                      fun n b2 h _ => ht.2.2 n b2 h⟩
                    rcases ht.1.2 with hp | hp
                    · exact .inl (by rw [hp, hch])
                    · exact .inr (by rw [hp, hch])
                · rw [if_neg hb2] at hrun
                  rw [run_bind_ok _ (run_pure _ mD)] at hrun
                  have ht := read_packet_tail_facts buf mD
                  rw [hrun] at ht
                  have hch : mD.eng = m.eng := by rw [hED, hEC, hEB, hEA]
                  refine ⟨⟨fun h => by rw [ht.1.1 h, hch], ?_⟩,
                    fun b2 h => absurd (ht.2.2 0 b2 h).1 (by decide),
                    fun n b2 h _ => ht.2.2 n b2 h⟩
                  rcases ht.1.2 with hp | hp
                  · exact .inl (by rw [hp, hch])
                  · exact .inr (by rw [hp, hch])
          · rw [if_neg hb1] at hrun
            rw [run_bind_ok _ (run_pure _ mB)] at hrun
            rcases read_byte_cases true mB with ⟨e, mE, heq, hE⟩ | ⟨b2v, mD, heqD, hED⟩
            · rw [run_bind_error _ heq] at hrun
              injection hrun with h1 h2
              subst h1; subst h2
              exact ⟨⟨fun h => by simp [okData] at h, .inl (by rw [hE, hEB, hEA])⟩,
                fun b2 hn => by simp at hn, fun n b2 hn => by simp at hn⟩
            · rw [run_bind_ok _ heqD] at hrun
              by_cases hb2 : (b2v != not8 mA.eng.packet) = true
              · rw [if_pos hb2] at hrun
                rcases write_byte_cases CAN mD with ⟨e, mE, heq, hE⟩ | ⟨mF, heqF, hEF⟩
                · rw [run_bind_error _ heq] at hrun
                  injection hrun with h1 h2
                  subst h1; subst h2
                  exact ⟨⟨fun h => by simp [okData] at h,
                    .inl (by rw [hE, hED, hEB, hEA])⟩,
                    fun b2 hn => by simp at hn, fun n b2 hn => by simp at hn⟩
                · rw [run_bind_ok _ heqF] at hrun
                  have ht := read_packet_tail_facts buf mF
                  rw [hrun] at ht
                  have hch : mF.eng = m.eng := by rw [hEF, hED, hEB, hEA]
                  refine ⟨⟨fun h => by rw [ht.1.1 h, hch], ?_⟩,
                    fun b2 h => absurd (ht.2.2 0 b2 h).1 (by decide),
                    fun n b2 h _ => ht.2.2 n b2 h⟩
                  rcases ht.1.2 with hp | hp
                  · exact .inl (by rw [hp, hch])
                  · exact .inr (by rw [hp, hch])
              · rw [if_neg hb2] at hrun
                rw [run_bind_ok _ (run_pure _ mD)] at hrun
                have ht := read_packet_tail_facts buf mD
                rw [hrun] at ht
                have hch : mD.eng = m.eng := by rw [hED, hEB, hEA]
                refine ⟨⟨fun h => by rw [ht.1.1 h, hch], ?_⟩,
                  fun b2 h => absurd (ht.2.2 0 b2 h).1 (by decide),
                  fun n b2 h _ => ht.2.2 n b2 h⟩
                rcases ht.1.2 with hp | hp
                · exact .inl (by rw [hp, hch])
                · exact .inr (by rw [hp, hch])
      · rw [if_neg hS] at hrun
        by_cases hEOT : (byte == EOT) = true
        · rw [if_pos hEOT] at hrun
          rcases write_byte_cases NAK mA with ⟨e, mE, heq, hE⟩ | ⟨mB, heqB, hEB⟩
          · rw [run_bind_error _ heq] at hrun
            injection hrun with h1 h2
            subst h1; subst h2
            exact ⟨⟨fun h => by simp [okData] at h, .inl (by rw [hE, hEA])⟩,
              fun b2 hn => by simp at hn, fun n b2 hn => by simp at hn⟩
          · rw [run_bind_ok _ heqB] at hrun
            rcases expect_byte_cases EOT "expected EOT byte" mB with
              ⟨e, mE, heq, hE⟩ | ⟨mC, heqC, hEC⟩
            · rw [run_bind_error _ heq] at hrun
              injection hrun with h1 h2
              subst h1; subst h2
              exact ⟨⟨fun h => by simp [okData] at h, .inl (by rw [hE, hEB, hEA])⟩,
                fun b2 hn => by simp at hn, fun n b2 hn => by simp at hn⟩
            · rw [run_bind_ok _ heqC] at hrun
              rcases write_byte_cases ACK mC with ⟨e, mE, heq, hE⟩ | ⟨mD, heqD, hED⟩
              · rw [run_bind_error _ heq] at hrun
                injection hrun with h1 h2
                subst h1; subst h2
                exact ⟨⟨fun h => by simp [okData] at h,
                  .inl (by rw [hE, hEC, hEB, hEA])⟩,
                  fun b2 hn => by simp at hn, fun n b2 hn => by simp at hn⟩
              · rw [run_bind_ok _ heqD, run_pure] at hrun
                injection hrun with h1 h2
                subst h1; subst h2
                refine ⟨⟨fun h => by simp [okData] at h,
                  .inl (by rw [hED, hEC, hEB, hEA])⟩,
                  fun b2 h => by rw [hED, hEC, hEB, hEA, hst],
                  fun n b2 h hne => ?_⟩
                injection h with h3
                injection h3 with h4 h5
                exact absurd h4.symm hne
        · rw [if_neg hEOT, run_throwErr] at hrun
          injection hrun with h1 h2
          subst h1; subst h2
          exact ⟨⟨fun h => by simp [okData] at h, .inl (by rw [hEA])⟩,
            fun b2 hn => by simp at hn, fun n b2 hn => by simp at hn⟩



/-- A `write_packet` call on a not-yet-started engine either fails
during the initial NAK handshake (engine fields untouched), or behaves
exactly like a `write_packet` call on the started engine that the
handshake produced. -/
theorem write_packet_unstarted (buf : List Nat) (m : Machine)
    (hst : m.eng.started = false) :
    (∃ e m', run (write_packet buf) m = (.error e, m') ∧ m'.eng = m.eng)
    ∨ (∃ m1, run (write_packet buf) m = run (write_packet buf) m1
        ∧ m1.eng = ⟨m.eng.packet, true⟩) := by
  by_cases hg : (decide (buf.length < 128) && buf.length != 0) = true
  · refine .inl ⟨⟨.UnexpectedEof, "unexpected packet format"⟩, m, ?_, rfl⟩
    simp only [write_packet, bind_eq, pure_eq]
    rw [if_pos hg, run_throwErr]
  · obtain ⟨mA, heqA, hEA⟩ := emit_cases .Waiting m
    rcases expect_byte_cases NAK "expected NAK as first byte" mA with
      ⟨e, mE, heq, hE⟩ | ⟨mB, heqB, hEB⟩
    · refine .inl ⟨e, mE, ?_, by rw [hE, hEA]⟩
      simp only [write_packet, bind_eq, pure_eq]
      rw [if_neg hg]
      rw [run_bind_ok _ (run_getEng m)]
      rw [hst]
      rw [if_pos (by simp)]
      rw [run_bind_ok _ heqA]
      rw [run_bind_error _ heq]
    · obtain ⟨mC, heqC, hEC⟩ :=
        emit_cases .Started { mB with eng := ⟨m.eng.packet, true⟩ }
      refine .inr ⟨mC, ?_, by rw [hEC]⟩
      simp only [write_packet, bind_eq, pure_eq]
      rw [if_neg hg]
      rw [run_bind_ok _ (run_getEng m)]
      rw [hst]
      rw [if_pos (by simp)]
      rw [run_bind_ok _ heqA]
      rw [run_bind_ok _ heqB]
      rw [run_bind_ok _ (run_setEng _ mB)]
      rw [run_bind_ok _ heqC]
      rw [run_bind_ok _ (run_getEng mC)]
      rw [if_neg (show ¬((!mC.eng.started) = true) by simp [hEC])]
      rw [run_bind_ok _ (run_pure _ mC)]

/-- A `read_packet` call on a not-yet-started engine either fails while
writing the initial NAK (engine fields untouched), or behaves exactly
like a `read_packet` call on the started engine that the handshake
produced. -/
theorem read_packet_unstarted (buf : List Nat) (m : Machine)
    (hst : m.eng.started = false) :
    (∃ e m', run (read_packet buf) m = (.error e, m') ∧ m'.eng = m.eng)
    ∨ (∃ m1, run (read_packet buf) m = run (read_packet buf) m1
        ∧ m1.eng = ⟨m.eng.packet, true⟩) := by
  by_cases hg : buf.length < 128
  · refine .inl ⟨⟨.UnexpectedEof, "invalid packet format"⟩, m, ?_, rfl⟩
    simp only [read_packet, bind_eq, pure_eq]
    rw [if_pos (by simp [hg]), run_throwErr]
  · rcases write_byte_cases NAK m with ⟨e, mE, heq, hE⟩ | ⟨mA, heqA, hEA⟩
    · refine .inl ⟨e, mE, ?_, hE⟩
      simp only [read_packet, bind_eq, pure_eq]
      rw [if_neg (by simp [hg])]
      rw [run_bind_ok _ (run_getEng m)]
      rw [hst]
      rw [if_pos (by simp)]
      rw [run_bind_error _ heq]
    · obtain ⟨mC, heqC, hEC⟩ :=
        emit_cases .Started { mA with eng := ⟨m.eng.packet, true⟩ }
      refine .inr ⟨mC, ?_, by rw [hEC]⟩
      simp only [read_packet, bind_eq, pure_eq]
      rw [if_neg (by simp [hg])]
      rw [run_bind_ok _ (run_getEng m)]
      rw [hst]
      rw [if_pos (by simp)]
      rw [run_bind_ok _ heqA]
      rw [run_bind_ok _ (run_setEng _ mA)]
      rw [run_bind_ok _ heqC]
      rw [run_bind_ok _ (run_getEng mC)]
      rw [if_neg (show ¬((!mC.eng.started) = true) by simp [hEC])]
      rw [run_bind_ok _ (run_pure _ mC)]

/-- The engine-state evolution of an arbitrary `write_packet` call: the
sequence number is wrapping-incremented exactly when the call returns
success for a non-empty buffer, and is untouched otherwise; and a
successful empty-buffer (end-of-transfer) call always resets `started`
to `false`. -/
theorem write_packet_run_facts (buf : List Nat) (m : Machine) :
    ((run (write_packet buf) m).2.eng.packet =
      if okPos (run (write_packet buf) m).1 then wrapInc m.eng.packet
      else m.eng.packet)
    ∧ (buf = [] → ∀ n, (run (write_packet buf) m).1 = .ok n →
        (run (write_packet buf) m).2.eng.started = false) := by
  cases hst : m.eng.started with
  | true => exact write_packet_facts_started buf m hst
  | false =>
    rcases write_packet_unstarted buf m hst with ⟨e, m', heq, hE⟩ | ⟨m1, heq, hE1⟩
    · rw [heq]
      exact ⟨by simp [okPos, hE], fun h n hn => by simp at hn⟩
    · rw [heq]
      have hf := write_packet_facts_started buf m1 (by rw [hE1])
      refine ⟨?_, hf.2⟩
      rw [hf.1, hE1]

/-- The engine-state evolution of an arbitrary `read_packet` call: the
sequence number is wrapping-incremented on every accepted data packet
(and possibly also when the final ACK write fails), never decremented
or skipped; an end-of-transfer return leaves `started` at `true`; a
data-packet success returns 128 and only writes buffer indices below
127. -/
theorem read_packet_run_facts (buf : List Nat) (m : Machine) :
    ((okData (run (read_packet buf) m).1 = true →
        (run (read_packet buf) m).2.eng.packet = wrapInc m.eng.packet)
      ∧ ((run (read_packet buf) m).2.eng.packet = m.eng.packet
          ∨ (run (read_packet buf) m).2.eng.packet = wrapInc m.eng.packet))
    ∧ (∀ b2, (run (read_packet buf) m).1 = .ok (0, b2) →
        (run (read_packet buf) m).2.eng.started = true)
    ∧ (∀ n b2, (run (read_packet buf) m).1 = .ok (n, b2) → n ≠ 0 →
        n = 128 ∧ b2.length = buf.length ∧ b2.drop 127 = buf.drop 127) := by
  cases hst : m.eng.started with
  | true => exact read_packet_facts_started buf m hst
  | false =>
    rcases read_packet_unstarted buf m hst with ⟨e, m', heq, hE⟩ | ⟨m1, heq, hE1⟩
    · rw [heq]
      exact ⟨⟨fun h => by simp [okData] at h, .inl (by rw [hE])⟩,
        fun b2 hn => by simp at hn, fun n b2 hn => by simp at hn⟩
    · rw [heq]
      have hf := read_packet_facts_started buf m1 (by rw [hE1])
      refine ⟨⟨?_, ?_⟩, hf.2.1, hf.2.2⟩
      · intro h
        rw [hf.1.1 h, hE1]
      · rcases hf.1.2 with hp | hp
        · exact .inl (by rw [hp, hE1])
        · exact .inr (by rw [hp, hE1])



/-- The machine after `k` complete `write_packet` calls on `pkt`
(successful or not), starting from `m`. -/
def wpIter (pkt : List Nat) (m : Machine) : Nat → Machine
  | 0 => m
  | k+1 => runMachine (write_packet pkt) (wpIter pkt m k)

/-- The machine after `k` complete `read_packet` calls into `buf`,
starting from `m`. -/
def rpIter (buf : List Nat) (m : Machine) : Nat → Machine
  | 0 => m
  | k+1 => runMachine (read_packet buf) (rpIter buf m k)

/-- Did the call fail with the transient `Interrupted` kind (the kind
the drivers retry, and the kind of `ChecksumMismatch`)? -/
def isInterruptedRes : Except IOError α → Bool
  | .error e => e.kind == .Interrupted
  | .ok _ => false

theorem wpIter_shift (pkt : List Nat) (m : Machine) :
    ∀ k, wpIter pkt m (k+1) = wpIter pkt (runMachine (write_packet pkt) m) k := by
  intro k
  induction k with
  | zero => rfl
  | succ k ih => show runMachine _ (wpIter pkt m (k+1)) = _; rw [ih]; rfl

theorem rpIter_shift (buf : List Nat) (m : Machine) :
    ∀ k, rpIter buf m (k+1) = rpIter buf (runMachine (read_packet buf) m) k := by
  intro k
  induction k with
  | zero => rfl
  | succ k ih => show runMachine _ (rpIter buf m (k+1)) = _; rw [ih]; rfl

/-- A non-`Interrupted` failure of `write_packet` aborts the retry loop
immediately: the error is returned unchanged on the first attempt. -/
theorem transmitRetry_aborts (pkt : List Nat) (a : Nat) (m : Machine) (e : IOError)
    (her : runResult (write_packet pkt) m = .error e) (hkind : e.kind ≠ .Interrupted) :
    run (transmitRetry pkt (a+1)) m = (.error e, runMachine (write_packet pkt) m) := by
  show run (Proc.bind _ _) m = _
  rw [run_bind_ok _ (run_attempt (write_packet pkt) m)]
  rw [show (run (write_packet pkt) m).1 = .error e from her]
  dsimp only
  rw [if_neg (by simp [hkind])]
  rw [run_throwErr]
  rfl

/-- A success of `write_packet` ends the retry loop at once. -/
theorem transmitRetry_succeeds (pkt : List Nat) (a : Nat) (m : Machine) (n : Nat)
    (hok : runResult (write_packet pkt) m = .ok n) :
    run (transmitRetry pkt (a+1)) m = (.ok (), runMachine (write_packet pkt) m) := by
  show run (Proc.bind _ _) m = _
  rw [run_bind_ok _ (run_attempt (write_packet pkt) m)]
  rw [show (run (write_packet pkt) m).1 = .ok n from hok]
  dsimp only [pure_eq]
  rw [run_pure]
  rfl

/-- If every one of the `a` allowed attempts fails with the transient
`Interrupted` kind, the retry loop performs exactly `a` `write_packet`
calls and then gives up with the `BrokenPipe` "bad transmit" error. -/
theorem transmitRetry_exhausts (pkt : List Nat) :
    ∀ (a : Nat) (m : Machine),
      (∀ k, k < a → isInterruptedRes (runResult (write_packet pkt) (wpIter pkt m k)) = true) →
      run (transmitRetry pkt a) m = (.error ⟨.BrokenPipe, "bad transmit"⟩, wpIter pkt m a) := by
  intro a
  induction a with
  | zero => intro m _; rw [show transmitRetry pkt 0 = throwErr _ from rfl, run_throwErr]; rfl
  | succ a ih =>
    intro m h
    have h0 := h 0 (by omega)
    show run (Proc.bind _ _) m = _
    rw [run_bind_ok _ (run_attempt (write_packet pkt) m)]
    rcases hres : (run (write_packet pkt) m).1 with e | n
    · have he : (e.kind == ErrorKind.Interrupted) = true := by
        have : runResult (write_packet pkt) (wpIter pkt m 0) = .error e := hres
        rw [this] at h0
        simpa [isInterruptedRes] using h0
      dsimp only
      rw [if_pos (by simp only [he])]
      have hih := ih ((run (write_packet pkt) m).2)
        (fun k hk => by
          show isInterruptedRes (runResult (write_packet pkt)
            (wpIter pkt (runMachine (write_packet pkt) m) k)) = true
          rw [← wpIter_shift]
          exact h (k+1) (by omega))
      rw [hih, wpIter_shift]
      rfl
    · rw [show runResult (write_packet pkt) (wpIter pkt m 0) = .ok n from hres] at h0
      simp [isInterruptedRes] at h0

/-- A non-`Interrupted` failure of `read_packet` aborts the receive
retry loop immediately. -/
theorem receiveRetry_aborts (buf : List Nat) (a : Nat) (m : Machine) (e : IOError)
    (her : runResult (read_packet buf) m = .error e) (hkind : e.kind ≠ .Interrupted) :
    run (receiveRetry buf (a+1)) m = (.error e, runMachine (read_packet buf) m) := by
  show run (Proc.bind _ _) m = _
  rw [run_bind_ok _ (run_attempt (read_packet buf) m)]
  rw [show (run (read_packet buf) m).1 = .error e from her]
  dsimp only
  rw [if_neg (by simp [hkind])]
  rw [run_throwErr]
  rfl

/-- A success of `read_packet` ends the receive retry loop at once,
returning the bytes-read count and buffer. -/
theorem receiveRetry_succeeds (buf : List Nat) (a : Nat) (m : Machine)
    (v : Nat × List Nat) (hok : runResult (read_packet buf) m = .ok v) :
    run (receiveRetry buf (a+1)) m = (.ok v, runMachine (read_packet buf) m) := by
  show run (Proc.bind _ _) m = _
  rw [run_bind_ok _ (run_attempt (read_packet buf) m)]
  rw [show (run (read_packet buf) m).1 = .ok v from hok]
  dsimp only [pure_eq]
  rw [run_pure]
  rfl

/-- If every one of the `a` allowed attempts fails with the transient
`Interrupted` kind, the receive retry loop performs exactly `a`
`read_packet` calls and then gives up with `BrokenPipe` "bad receive". -/
theorem receiveRetry_exhausts (buf : List Nat) :
    ∀ (a : Nat) (m : Machine),
      (∀ k, k < a → isInterruptedRes (runResult (read_packet buf) (rpIter buf m k)) = true) →
      run (receiveRetry buf a) m = (.error ⟨.BrokenPipe, "bad receive"⟩, rpIter buf m a) := by
  intro a
  induction a with
  | zero => intro m _; rw [show receiveRetry buf 0 = throwErr _ from rfl, run_throwErr]; rfl
  | succ a ih =>
    intro m h
    have h0 := h 0 (by omega)
    show run (Proc.bind _ _) m = _
    rw [run_bind_ok _ (run_attempt (read_packet buf) m)]
    rcases hres : (run (read_packet buf) m).1 with e | v
    · have he : (e.kind == ErrorKind.Interrupted) = true := by
        have : runResult (read_packet buf) (rpIter buf m 0) = .error e := hres
        rw [this] at h0
        simpa [isInterruptedRes] using h0
      dsimp only
      rw [if_pos (by simp only [he])]
      have hih := ih ((run (read_packet buf) m).2)
        (fun k hk => by
          show isInterruptedRes (runResult (read_packet buf)
            (rpIter buf (runMachine (read_packet buf) m) k)) = true
          rw [← rpIter_shift]
          exact h (k+1) (by omega))
      rw [hih, rpIter_shift]
      rfl
    · rw [show runResult (read_packet buf) (rpIter buf m 0) = .ok v from hres] at h0
      simp [isInterruptedRes] at h0



/-- Shorthand for "this side of the coupled pair cannot move": it is
finished (`pure`/`fail`) or blocked reading from an empty queue. -/
theorem procStep_none_of_readB_nil {α : Type} (p : Proc α) (eng : EngState)
    (outq : List Nat) (hp : p.isReadB = true) :
    procStep p eng [] outq = none := by
  cases p <;> simp_all [Proc.isReadB, procStep]

/-- If neither side of a stuck configuration can move, `runPair` leaves
it unchanged for any amount of fuel. -/
theorem runPair_stuck (c : Config)
    (hs : procStep c.sender c.sEng c.r2s c.s2r = none)
    (hr : procStep c.recv c.rEng c.s2r c.r2s = none) :
    ∀ fuel, runPair fuel c = c := by
  intro fuel
  cases fuel with
  | zero => rfl
  | succ fuel => simp [runPair, hs, hr]

/-- Scheduler fuel composes. -/
theorem runPair_add (a : Nat) :
    ∀ (b : Nat) (c : Config), runPair (a + b) c = runPair b (runPair a c) := by
  induction a with
  | zero => intro b c; rw [Nat.zero_add]; rfl
  | succ a ih =>
    intro b c
    rcases hs : procStep c.sender c.sEng c.r2s c.s2r with _ | ⟨p, e, inc, outq⟩
    · rcases hr : procStep c.recv c.rEng c.s2r c.r2s with _ | ⟨p, e, inc, outq⟩
      · rw [runPair_stuck c hs hr (a + 1 + b), runPair_stuck c hs hr (a + 1),
          runPair_stuck c hs hr b]
      · have h1 : runPair (a + 1) c =
            runPair a { c with recv := p, rEng := e, s2r := inc, r2s := outq } := by
          simp [runPair, hs, hr]
        have h2 : a + 1 + b = (a + b) + 1 := by omega
        have h3 : runPair (a + 1 + b) c =
            runPair (a + b) { c with recv := p, rEng := e, s2r := inc, r2s := outq } := by
          rw [show a + 1 + b = (a + b) + 1 from by omega]
          simp [runPair, hs, hr]
        rw [h3, h1, ih]
    · have h1 : runPair (a + 1) c =
          runPair a { c with sender := p, sEng := e, r2s := inc, s2r := outq } := by
        simp [runPair, hs]
      have h3 : runPair (a + 1 + b) c =
          runPair (a + b) { c with sender := p, sEng := e, r2s := inc, s2r := outq } := by
        rw [show a + 1 + b = (a + b) + 1 from by omega]
        simp [runPair, hs]
      rw [h3, h1, ih]

/-- A finished sender stays finished under the scheduler. -/
theorem runPair_sender_pure (fuel : Nat) :
    ∀ (c : Config), c.sender.isPure = true → (runPair fuel c).sender.isPure = true := by
  induction fuel with
  | zero => intro c h; exact h
  | succ fuel ih =>
    intro c h
    have hs : procStep c.sender c.sEng c.r2s c.s2r = none := by
      rcases c with ⟨s, se, rv, re, q1, q2⟩
      cases s <;> simp_all [Proc.isPure, procStep]
    rcases hr : procStep c.recv c.rEng c.s2r c.r2s with _ | ⟨p, e, inc, outq⟩
    · simp [runPair, hs, hr]
      exact h
    · have : runPair (fuel + 1) c =
          runPair fuel { c with recv := p, rEng := e, s2r := inc, r2s := outq } := by
        simp [runPair, hs, hr]
      rw [this]
      exact ih _ h

/-- A finished receiver stays finished under the scheduler. -/
theorem runPair_recv_pure (fuel : Nat) :
    ∀ (c : Config), c.recv.isPure = true → (runPair fuel c).recv.isPure = true := by
  induction fuel with
  | zero => intro c h; exact h
  | succ fuel ih =>
    intro c h
    have hr : procStep c.recv c.rEng c.s2r c.r2s = none := by
      rcases c with ⟨s, se, rv, re, q1, q2⟩
      cases rv <;> simp_all [Proc.isPure, procStep]
    rcases hs : procStep c.sender c.sEng c.r2s c.s2r with _ | ⟨p, e, inc, outq⟩
    · simp [runPair, hs, hr]
      exact h
    · have : runPair (fuel + 1) c =
          runPair fuel { c with sender := p, sEng := e, r2s := inc, s2r := outq } := by
        simp [runPair, hs, hr]
      rw [this]
      exact ih _ h



/-- `transmit` and `receive` coupled over a loopback transport pair,
both engines fresh (`Xmodem::new`), both queues empty. -/
def loopbackConfig (data : List Nat) (rf : Nat) : Config :=
  { sender := transmit data, sEng := newEng, recv := receive rf,
    rEng := newEng, s2r := [], r2s := [] }

theorem isPure_false_of_isReadB {α : Type} (p : Proc α) (h : p.isReadB = true) :
    p.isPure = false := by
  cases p <;> simp_all [Proc.isPure, Proc.isReadB]

/-- After 100 scheduler steps on a one-byte transfer, both sides are
blocked on a read with both queues empty: a deadlock. -/
theorem loopback_deadlock_core :
    (runPair 100 (loopbackConfig [42] 1000)).sender.isReadB = true
    ∧ (runPair 100 (loopbackConfig [42] 1000)).r2s = []
    ∧ (runPair 100 (loopbackConfig [42] 1000)).recv.isReadB = true
    ∧ (runPair 100 (loopbackConfig [42] 1000)).s2r = [] := by decide

theorem loopback_never_completes :
    ∀ fuel, ((runPair fuel (loopbackConfig [42] 1000)).sender.isPure = false)
      ∧ ((runPair fuel (loopbackConfig [42] 1000)).recv.isPure = false) := by
  have hcore := loopback_deadlock_core
  have hsStep : procStep (runPair 100 (loopbackConfig [42] 1000)).sender
      (runPair 100 (loopbackConfig [42] 1000)).sEng
      (runPair 100 (loopbackConfig [42] 1000)).r2s
      (runPair 100 (loopbackConfig [42] 1000)).s2r = none := by
    rw [hcore.2.1]
    exact procStep_none_of_readB_nil _ _ _ hcore.1
  have hrStep : procStep (runPair 100 (loopbackConfig [42] 1000)).recv
      (runPair 100 (loopbackConfig [42] 1000)).rEng
      (runPair 100 (loopbackConfig [42] 1000)).s2r
      (runPair 100 (loopbackConfig [42] 1000)).r2s = none := by
    rw [hcore.2.2.2]
    exact procStep_none_of_readB_nil _ _ _ hcore.2.2.1
  intro fuel
  rcases Nat.le_total fuel 100 with hle | hle
  · constructor
    · cases hp : (runPair fuel (loopbackConfig [42] 1000)).sender.isPure with
      | false => rfl
      | true =>
        have hpers := runPair_sender_pure (100 - fuel) _ hp
        rw [← runPair_add fuel (100 - fuel) (loopbackConfig [42] 1000)] at hpers
        rw [show fuel + (100 - fuel) = 100 from by omega] at hpers
        rw [isPure_false_of_isReadB _ hcore.1] at hpers
        cases hpers
    · cases hp : (runPair fuel (loopbackConfig [42] 1000)).recv.isPure with
      | false => rfl
      | true =>
        have hpers := runPair_recv_pure (100 - fuel) _ hp
        rw [← runPair_add fuel (100 - fuel) (loopbackConfig [42] 1000)] at hpers
        rw [show fuel + (100 - fuel) = 100 from by omega] at hpers
        rw [isPure_false_of_isReadB _ hcore.2.2.1] at hpers
        cases hpers
  · have hfix : runPair fuel (loopbackConfig [42] 1000)
        = runPair 100 (loopbackConfig [42] 1000) := by
      rw [show fuel = 100 + (fuel - 100) from by omega,
        runPair_add 100 (fuel - 100) (loopbackConfig [42] 1000),
        runPair_stuck _ hsStep hrStep]
    rw [hfix]
    exact ⟨isPure_false_of_isReadB _ hcore.1, isPure_false_of_isReadB _ hcore.2.2.1⟩

end Xmodem

deriving instance DecidableEq for Except

namespace Xmodem

set_option maxRecDepth 100000

/-- C1 (code-bug evidence): on a loopback transport pair carrying the
one-byte payload `[0x2a]`, `transmit` and `receive` deadlock instead of
completing: under the coupled scheduler neither side ever finishes (for
any amount of scheduler fuel), and after 100 steps both sides are
blocked on a transport read with both queues empty — the sender is
waiting for an "echo" byte after the sequence-number byte that the
receiver never sends. -/
theorem claim_C1 :
    (∀ fuel, ((runPair fuel (loopbackConfig [42] 1000)).sender.isPure = false)
      ∧ ((runPair fuel (loopbackConfig [42] 1000)).recv.isPure = false))
    ∧ ((runPair 100 (loopbackConfig [42] 1000)).sender.isReadB = true
      ∧ (runPair 100 (loopbackConfig [42] 1000)).r2s = [])
    ∧ ((runPair 100 (loopbackConfig [42] 1000)).recv.isReadB = true
      ∧ (runPair 100 (loopbackConfig [42] 1000)).s2r = []) :=
  ⟨loopback_never_completes,
   ⟨loopback_deadlock_core.1, loopback_deadlock_core.2.1⟩,
   ⟨loopback_deadlock_core.2.2.1, loopback_deadlock_core.2.2.2⟩⟩

/-- C2 (code-bug evidence): when the transport write of the trailing
checksum byte (the 131st write of a data-packet exchange) fails,
`write_packet` does not return the error: the `io::Result` of
`self.write_byte(checksum)` is discarded (missing `?` at source line
351), the exchange continues, and with an `ACK` response the call
returns `Ok(128)` — with only 130 of the 131 packet bytes on the wire
and the sequence number advanced. -/
theorem claim_C2 :
    runResult (write_packet (List.replicate 128 7))
      ⟨⟨1, true⟩, [0, 0, ACK],
        List.replicate 130 none ++ [some ⟨.BrokenPipe, "io error"⟩], [], []⟩
      = .ok 128
    ∧ (runMachine (write_packet (List.replicate 128 7))
        ⟨⟨1, true⟩, [0, 0, ACK],
          List.replicate 130 none ++ [some ⟨.BrokenPipe, "io error"⟩], [], []⟩).output.length
      = 130
    ∧ (runMachine (write_packet (List.replicate 128 7))
        ⟨⟨1, true⟩, [0, 0, ACK],
          List.replicate 130 none ++ [some ⟨.BrokenPipe, "io error"⟩], [], []⟩).eng.packet
      = 2 := by
  refine ⟨by decide, by decide, by decide⟩

/-- C3 counterexample: a `read_packet` call that completes the
EOT/NAK/EOT/ACK end-of-transfer handshake and returns 0 leaves
`handshake_started` at `true`: the flag is not reset on the receive
side, contradicting the claim. -/
theorem claim_C3_counterexample :
    runResult (read_packet (List.replicate 128 0)) ⟨⟨1, true⟩, [4, 4], [], [], []⟩
      = .ok (0, List.replicate 128 0)
    ∧ (runMachine (read_packet (List.replicate 128 0))
        ⟨⟨1, true⟩, [4, 4], [], [], []⟩).eng.started = true := by
  refine ⟨by decide, by decide⟩

/-- C3 (amended): a successful `write_packet` call with an empty buffer
(the sender-side end-of-transfer handshake) always resets
`handshake_started` to `false`; but a `read_packet` call that receives
EOT and returns 0 always leaves `handshake_started` at `true` —
`read_packet` never resets the flag. -/
theorem claim_C3 :
    (∀ (m : Machine) (n : Nat), (run (write_packet []) m).1 = .ok n →
        (run (write_packet []) m).2.eng.started = false)
    ∧ (∀ (buf b2 : List Nat) (m : Machine),
        (run (read_packet buf) m).1 = .ok (0, b2) →
        (run (read_packet buf) m).2.eng.started = true) :=
  ⟨fun m n h => (write_packet_run_facts [] m).2 rfl n h,
   fun buf b2 m h => (read_packet_run_facts buf m).2.1 b2 h⟩

theorem claim_C3_witness :
    (run (write_packet []) ⟨⟨1, true⟩, [21, 6], [], [], []⟩).2.eng.started = false
    ∧ (run (read_packet (List.replicate 128 0))
        ⟨⟨1, true⟩, [4, 4], [], [], []⟩).2.eng.started = true :=
  ⟨claim_C3.1 ⟨⟨1, true⟩, [21, 6], [], [], []⟩ 0 (by decide),
   claim_C3.2 (List.replicate 128 0) (List.replicate 128 0)
     ⟨⟨1, true⟩, [4, 4], [], [], []⟩ (by decide)⟩

/-- C4 counterexample: the sequence number can be incremented by a
`read_packet` call that fails — when the checksum matches but the
transport write of the final ACK fails, the call returns the transport
error with the counter already advanced, so the counter is not
incremented "exactly once per successfully acknowledged data packet". -/
theorem claim_C4_counterexample :
    runResult (read_packet (List.replicate 128 0))
      ⟨⟨1, true⟩, [1, 1, 254] ++ List.replicate 127 0 ++ [0],
        [some ⟨.BrokenPipe, "transport gone"⟩], [], []⟩
      = .error ⟨.BrokenPipe, "transport gone"⟩
    ∧ (runMachine (read_packet (List.replicate 128 0))
        ⟨⟨1, true⟩, [1, 1, 254] ++ List.replicate 127 0 ++ [0],
          [some ⟨.BrokenPipe, "transport gone"⟩], [], []⟩).eng.packet = 2 := by
  refine ⟨by decide, by decide⟩

/-- C4 (amended): the sequence number starts at 1; across every
`read_packet` and `write_packet` call it is either left unchanged or
incremented by exactly 1 modulo 256 (never decremented, never skipped);
`write_packet` increments it exactly when it returns success for a
data packet; `read_packet` increments it on every data-packet success
(but may also increment when only the final ACK write fails); starting
from 1, the 255th consecutive increment reaches 0 and the 256th is
back at 1. -/
theorem claim_C4 :
    newEng.packet = 1
    ∧ (∀ (buf : List Nat) (m : Machine),
        (run (write_packet buf) m).2.eng.packet =
          if okPos (run (write_packet buf) m).1 then wrapInc m.eng.packet
          else m.eng.packet)
    ∧ (∀ (buf : List Nat) (m : Machine),
        ((run (read_packet buf) m).2.eng.packet = m.eng.packet
          ∨ (run (read_packet buf) m).2.eng.packet = wrapInc m.eng.packet)
        ∧ (okData (run (read_packet buf) m).1 = true →
            (run (read_packet buf) m).2.eng.packet = wrapInc m.eng.packet))
    ∧ wrapInc^[255] 1 = 0 ∧ wrapInc^[256] 1 = 1 :=
  ⟨rfl,
   fun buf m => (write_packet_run_facts buf m).1,
   fun buf m => ⟨(read_packet_run_facts buf m).1.2, (read_packet_run_facts buf m).1.1⟩,
   by decide, by decide⟩

theorem claim_C4_witness :
    (run (read_packet (List.replicate 128 9))
      ⟨⟨1, true⟩, [1, 1, 254] ++ List.replicate 127 3 ++ [125], [], [], []⟩).2.eng.packet
      = wrapInc 1 :=
  (claim_C4.2.2.1 (List.replicate 128 9)
    ⟨⟨1, true⟩, [1, 1, 254] ++ List.replicate 127 3 ++ [125], [], [], []⟩).2 (by decide)

/-- C7: calling `read_packet` with a buffer shorter than 128 bytes
always fails with the buffer-too-small error (`UnexpectedEof`,
"invalid packet format") before any transport I/O: the whole machine —
engine fields, input script, write faults, output and events — is
returned unchanged. -/
theorem claim_C7 (buf : List Nat) (m : Machine) (h : buf.length < 128) :
    run (read_packet buf) m =
      (.error ⟨.UnexpectedEof, "invalid packet format"⟩, m) := by
  simp only [read_packet, bind_eq, pure_eq]
  rw [if_pos (by simp [h]), run_throwErr]

theorem claim_C7_witness :
    run (read_packet (List.replicate 127 0)) ⟨⟨1, false⟩, [4, 4], [], [], []⟩ =
      (.error ⟨.UnexpectedEof, "invalid packet format"⟩,
        ⟨⟨1, false⟩, [4, 4], [], [], []⟩) :=
  claim_C7 (List.replicate 127 0) ⟨⟨1, false⟩, [4, 4], [], [], []⟩ (by decide)

/-- C10: a `read_packet` call that succeeds with a data packet (a
nonzero byte count) returns exactly 128 and writes only buffer indices
0 through 126: the returned buffer has the caller's length and agrees
with the caller's buffer from index 127 on. -/
theorem claim_C10 (buf : List Nat) (m : Machine) (n : Nat) (b2 : List Nat)
    (m' : Machine) (hrun : run (read_packet buf) m = (.ok (n, b2), m'))
    (hn : n ≠ 0) :
    n = 128 ∧ b2.length = buf.length ∧ b2.drop 127 = buf.drop 127 :=
  (read_packet_run_facts buf m).2.2 n b2 (by rw [hrun]) hn

theorem claim_C10_witness :
    (128 : Nat) = 128
    ∧ (List.replicate 127 3 ++ [9] : List Nat).length
        = (List.replicate 128 9 : List Nat).length
    ∧ (List.replicate 127 3 ++ [9] : List Nat).drop 127
        = (List.replicate 128 9 : List Nat).drop 127 :=
  claim_C10 (List.replicate 128 9)
    ⟨⟨1, true⟩, [1, 1, 254] ++ List.replicate 127 3 ++ [125], [], [], []⟩
    128 (List.replicate 127 3 ++ [9]) ⟨⟨2, true⟩, [], [], [6], [.Packet 1]⟩
    (by decide) (by decide)

/-- One `Interrupted` failure of `write_packet` makes the retry loop
try again on the post-failure machine. -/
theorem transmitRetry_interrupted (pkt : List Nat) (a : Nat) (m : Machine) (e : IOError)
    (her : runResult (write_packet pkt) m = .error e) (hkind : e.kind = .Interrupted) :
    run (transmitRetry pkt (a+1)) m =
      run (transmitRetry pkt a) (runMachine (write_packet pkt) m) := by
  show run (Proc.bind _ _) m = _
  rw [run_bind_ok _ (run_attempt (write_packet pkt) m)]
  rw [show (run (write_packet pkt) m).1 = .error e from her]
  dsimp only
  rw [if_pos (by simp [hkind])]
  rfl

/-- C5: the retry policy of `transmit` and `receive`.  The drivers
attempt each packet exchange with a budget of exactly 10 tries
(`transmit_go` and `receive_go` invoke their retry loops with 10); in
the retry loops, a failure whose kind is not `Interrupted` is returned
to the caller immediately after a single attempt, a success ends the
loop at once, and if every allowed attempt fails with the transient
`Interrupted` kind (which is how `ChecksumMismatch` is reported) the
loop performs exactly that many attempts and then fails with the
`BrokenPipe`-class "bad transmit" / "bad receive" error. -/
theorem claim_C5 :
    (∀ (chunk : List Nat) (rest : List (List Nat)) (w : Nat),
        transmit_go (chunk :: rest) w =
          Proc.bind (transmitRetry (chunk ++ List.replicate (128 - chunk.length) 0) 10)
            (fun _ => transmit_go rest (w + chunk.length)))
    ∧ (∀ (buf sink : List Nat) (rec f : Nat),
        receive_go buf sink rec (f+1) =
          Proc.bind (receiveRetry buf 10)
            (fun r => if r.1 == 0 then Proc.pure (rec, sink)
              else receive_go r.2 (sink ++ r.2) (rec + r.1) f))
    ∧ (∀ (pkt : List Nat) (a : Nat) (m : Machine) (e : IOError),
        runResult (write_packet pkt) m = .error e → e.kind ≠ .Interrupted →
        run (transmitRetry pkt (a+1)) m = (.error e, runMachine (write_packet pkt) m))
    ∧ (∀ (pkt : List Nat) (a : Nat) (m : Machine) (n : Nat),
        runResult (write_packet pkt) m = .ok n →
        run (transmitRetry pkt (a+1)) m = (.ok (), runMachine (write_packet pkt) m))
    ∧ (∀ (pkt : List Nat) (a : Nat) (m : Machine),
        (∀ k, k < a →
          isInterruptedRes (runResult (write_packet pkt) (wpIter pkt m k)) = true) →
        run (transmitRetry pkt a) m =
          (.error ⟨.BrokenPipe, "bad transmit"⟩, wpIter pkt m a))
    ∧ (∀ (buf : List Nat) (a : Nat) (m : Machine) (e : IOError),
        runResult (read_packet buf) m = .error e → e.kind ≠ .Interrupted →
        run (receiveRetry buf (a+1)) m = (.error e, runMachine (read_packet buf) m))
    ∧ (∀ (buf : List Nat) (a : Nat) (m : Machine) (v : Nat × List Nat),
        runResult (read_packet buf) m = .ok v →
        run (receiveRetry buf (a+1)) m = (.ok v, runMachine (read_packet buf) m))
    ∧ (∀ (buf : List Nat) (a : Nat) (m : Machine),
        (∀ k, k < a →
          isInterruptedRes (runResult (read_packet buf) (rpIter buf m k)) = true) →
        run (receiveRetry buf a) m =
          (.error ⟨.BrokenPipe, "bad receive"⟩, rpIter buf m a)) :=
  ⟨fun _ _ _ => rfl, fun _ _ _ _ => rfl,
   transmitRetry_aborts, transmitRetry_succeeds, transmitRetry_exhausts,
   receiveRetry_aborts, receiveRetry_succeeds, receiveRetry_exhausts⟩

theorem claim_C5_witness :
    run (transmitRetry (List.replicate 128 0) 1)
        ⟨⟨1, true⟩, [0, 0, 6], [some ⟨.BrokenPipe, "io down"⟩], [], []⟩
      = (.error ⟨.BrokenPipe, "io down"⟩,
          runMachine (write_packet (List.replicate 128 0))
            ⟨⟨1, true⟩, [0, 0, 6], [some ⟨.BrokenPipe, "io down"⟩], [], []⟩)
    ∧ run (transmitRetry (List.replicate 128 0) 1) ⟨⟨1, true⟩, [0, 0, 6], [], [], []⟩
      = (.ok (),
          runMachine (write_packet (List.replicate 128 0)) ⟨⟨1, true⟩, [0, 0, 6], [], [], []⟩)
    ∧ run (transmitRetry (List.replicate 128 0) 1) ⟨⟨1, true⟩, [0, 0, 21], [], [], []⟩
      = (.error ⟨.BrokenPipe, "bad transmit"⟩,
          wpIter (List.replicate 128 0) ⟨⟨1, true⟩, [0, 0, 21], [], [], []⟩ 1)
    ∧ run (receiveRetry [] 1) ⟨⟨1, true⟩, [], [], [], []⟩
      = (.error ⟨.UnexpectedEof, "invalid packet format"⟩,
          runMachine (read_packet []) ⟨⟨1, true⟩, [], [], [], []⟩)
    ∧ run (receiveRetry (List.replicate 128 0) 1)
        ⟨⟨1, true⟩, [1, 1, 254] ++ List.replicate 127 0 ++ [0], [], [], []⟩
      = (.ok (128, List.replicate 128 0),
          runMachine (read_packet (List.replicate 128 0))
            ⟨⟨1, true⟩, [1, 1, 254] ++ List.replicate 127 0 ++ [0], [], [], []⟩)
    ∧ run (receiveRetry (List.replicate 128 0) 1)
        ⟨⟨1, true⟩, [1, 1, 254] ++ List.replicate 127 0 ++ [5], [], [], []⟩
      = (.error ⟨.BrokenPipe, "bad receive"⟩,
          rpIter (List.replicate 128 0)
            ⟨⟨1, true⟩, [1, 1, 254] ++ List.replicate 127 0 ++ [5], [], [], []⟩ 1) :=
  ⟨claim_C5.2.2.1 (List.replicate 128 0) 0
      ⟨⟨1, true⟩, [0, 0, 6], [some ⟨.BrokenPipe, "io down"⟩], [], []⟩
      ⟨.BrokenPipe, "io down"⟩ (by decide) (by decide),
   claim_C5.2.2.2.1 (List.replicate 128 0) 0 ⟨⟨1, true⟩, [0, 0, 6], [], [], []⟩ 128 (by decide),
   claim_C5.2.2.2.2.1 (List.replicate 128 0) 1 ⟨⟨1, true⟩, [0, 0, 21], [], [], []⟩
      (by decide),
   claim_C5.2.2.2.2.2.1 [] 0 ⟨⟨1, true⟩, [], [], [], []⟩
      ⟨.UnexpectedEof, "invalid packet format"⟩ (by decide) (by decide),
   claim_C5.2.2.2.2.2.2.1 (List.replicate 128 0) 0
      ⟨⟨1, true⟩, [1, 1, 254] ++ List.replicate 127 0 ++ [0], [], [], []⟩
      (128, List.replicate 128 0) (by decide),
   claim_C5.2.2.2.2.2.2.2 (List.replicate 128 0) 1
      ⟨⟨1, true⟩, [1, 1, 254] ++ List.replicate 127 0 ++ [5], [], [], []⟩ (by decide)⟩

/-- C6: a `NAK` response to a complete data packet makes `write_packet`
fail with the retryable `Interrupted` ("checksum failed") error — the
`ChecksumMismatch` condition — leaving the sequence number unchanged;
and the driver retry loop, fed one `NAK` and then an `ACK`, retransmits
exactly the same 131 wire bytes (same sequence number `s`) once more
and then succeeds, incrementing the sequence number once. -/
theorem claim_C6 (buf : List Nat) (s x y x2 y2 : Nat) (rest out0 : List Nat)
    (ev0 : List Progress) (hlen : 128 ≤ buf.length)
    (hx : x ≠ CAN) (hy : y ≠ CAN) (hx2 : x2 ≠ CAN) (hy2 : y2 ≠ CAN) :
    run (write_packet buf) ⟨⟨s, true⟩, x :: y :: NAK :: rest, [], out0, ev0⟩
      = (.error ⟨.Interrupted, "checksum failed"⟩,
          ⟨⟨s, true⟩, rest, [], out0 ++ wire s buf, ev0 ++ [.Started]⟩)
    ∧ ∀ (a : Nat),
        run (transmitRetry buf (a+2))
          ⟨⟨s, true⟩, x :: y :: NAK :: (x2 :: y2 :: ACK :: rest), [], out0, ev0⟩
          = (.ok (),
              ⟨⟨wrapInc s, true⟩, rest, [],
                (out0 ++ wire s buf) ++ wire s buf,
                (ev0 ++ [.Started]) ++ [.Started, .Packet s]⟩) := by
  refine ⟨write_packet_data_nak buf s x y rest out0 ev0 hlen hx hy, ?_⟩
  intro a
  have h1 := write_packet_data_nak buf s x y (x2 :: y2 :: ACK :: rest) out0 ev0 hlen hx hy
  rw [transmitRetry_interrupted buf (a+1)
        ⟨⟨s, true⟩, x :: y :: NAK :: (x2 :: y2 :: ACK :: rest), [], out0, ev0⟩
        ⟨.Interrupted, "checksum failed"⟩
        (by show (run (write_packet buf) _).1 = _; rw [h1]) rfl]
  rw [show runMachine (write_packet buf)
        ⟨⟨s, true⟩, x :: y :: NAK :: (x2 :: y2 :: ACK :: rest), [], out0, ev0⟩
      = ⟨⟨s, true⟩, x2 :: y2 :: ACK :: rest, [], out0 ++ wire s buf,
          ev0 ++ [Progress.Started]⟩
      from congrArg Prod.snd h1]
  have h2 := write_packet_data_ack buf s x2 y2 rest (out0 ++ wire s buf)
    (ev0 ++ [.Started]) hlen hx2 hy2
  rw [transmitRetry_succeeds buf a
        ⟨⟨s, true⟩, x2 :: y2 :: ACK :: rest, [], out0 ++ wire s buf,
          ev0 ++ [Progress.Started]⟩
        buf.length (by show (run (write_packet buf) _).1 = _; rw [h2])]
  rw [show runMachine (write_packet buf)
        ⟨⟨s, true⟩, x2 :: y2 :: ACK :: rest, [], out0 ++ wire s buf,
          ev0 ++ [Progress.Started]⟩
      = ⟨⟨wrapInc s, true⟩, rest, [],
          (out0 ++ wire s buf) ++ wire s buf,
          (ev0 ++ [Progress.Started]) ++ [Progress.Started, Progress.Packet s]⟩
      from congrArg Prod.snd h2]

theorem claim_C6_witness :
    run (write_packet (List.replicate 128 7)) ⟨⟨1, true⟩, [0, 0, 21], [], [], []⟩
      = (.error ⟨.Interrupted, "checksum failed"⟩,
          ⟨⟨1, true⟩, [], [], wire 1 (List.replicate 128 7), [.Started]⟩)
    ∧ run (transmitRetry (List.replicate 128 7) 2)
        ⟨⟨1, true⟩, [0, 0, 21, 0, 0, 6], [], [], []⟩
      = (.ok (),
          ⟨⟨wrapInc 1, true⟩, [], [],
            wire 1 (List.replicate 128 7) ++ wire 1 (List.replicate 128 7),
            [.Started] ++ [.Started, .Packet 1]⟩) :=
  ⟨(claim_C6 (List.replicate 128 7) 1 0 0 0 0 [] [] []
      (by decide) (by decide) (by decide) (by decide) (by decide)).1,
   (claim_C6 (List.replicate 128 7) 1 0 0 0 0 [] [] []
      (by decide) (by decide) (by decide) (by decide) (by decide)).2 0⟩

/-- C8: the checksum is the modulo-256 sum of the 127 payload bytes.
`sum8` (the checksum fold of the code) equals `l.sum % 256`; the 131
bytes a data packet puts on the wire end in `sum8` of the 127 payload
bytes; `write_packet`'s transmitted output is exactly those wire bytes;
`read_packet` accepts a data packet exactly when the received checksum
byte equals `sum8` of the received payload; and 127 bytes of value 255
give checksum 129 = (127 * 255) % 256. -/
theorem claim_C8 :
    (∀ (l : List Nat), sum8 l = l.sum % 256)
    ∧ (∀ (s : Nat) (payload : List Nat),
        wire s payload
          = [SOH, s, not8 s] ++ payload.take 127 ++ [sum8 (payload.take 127)])
    ∧ (∀ (buf : List Nat) (s x y : Nat) (rest out0 : List Nat) (ev0 : List Progress),
        128 ≤ buf.length → x ≠ CAN → y ≠ CAN →
        (runMachine (write_packet buf)
            ⟨⟨s, true⟩, x :: y :: ACK :: rest, [], out0, ev0⟩).output
          = out0 ++ wire s buf)
    ∧ (∀ (buf payload : List Nat) (s w cmp c : Nat) (rest out0 : List Nat)
        (ev0 : List Progress),
        128 ≤ buf.length → payload.length = 127 → (24 : Nat) ∉ payload →
        w ≠ CAN → cmp ≠ CAN → c ≠ CAN →
        (okData (run (read_packet buf)
            ⟨⟨s, true⟩, SOH :: w :: cmp :: (payload ++ c :: rest), [], out0, ev0⟩).1
          = true ↔ c = sum8 payload))
    ∧ sum8 (List.replicate 127 255) = 129 ∧ 127 * 255 % 256 = 129 := by
  refine ⟨sum8_eq_sum, fun _ _ => rfl, ?_, ?_, by decide, by decide⟩
  · intro buf s x y rest out0 ev0 h1 h2 h3
    show (run (write_packet buf) _).2.output = _
    rw [write_packet_data_ack buf s x y rest out0 ev0 h1 h2 h3]
  · intro buf payload s w cmp c rest out0 ev0 hbuf hp hpc hw hcmp hc
    rw [read_packet_data_run buf payload s w cmp c rest out0 ev0 hbuf hp hpc hw hcmp hc]
    by_cases hc8 : c = sum8 payload
    · rw [if_pos hc8]
      simp [okData, hc8]
    · rw [if_neg hc8]
      simp [okData, hc8]

theorem claim_C8_witness :
    (runMachine (write_packet (List.replicate 128 255))
        ⟨⟨1, true⟩, [0, 0, 6], [], [], []⟩).output
      = wire 1 (List.replicate 128 255)
    ∧ (okData (run (read_packet (List.replicate 128 0))
          ⟨⟨1, true⟩, 1 :: 1 :: 254 :: (List.replicate 127 255 ++ 129 :: []), [], [], []⟩).1
        = true ↔ (129 : Nat) = sum8 (List.replicate 127 255)) :=
  ⟨claim_C8.2.2.1 (List.replicate 128 255) 1 0 0 [] [] []
      (by decide) (by decide) (by decide),
   claim_C8.2.2.2.1 (List.replicate 128 0) (List.replicate 127 255) 1 1 254 129 [] [] []
      (by decide) (by decide) (by decide) (by decide) (by decide) (by decide)⟩

/-- C9: a data-packet exchange whose wire sequence byte `w` or
complement byte `cmp` does not match the engine state writes `CAN` to
the transport but does not abort: the payload and checksum are still
read, and with a matching checksum the call still succeeds with 128
bytes. -/
theorem claim_C9 (buf payload : List Nat) (s w cmp : Nat) (rest out0 : List Nat)
    (ev0 : List Progress) (hbuf : 128 ≤ buf.length) (hp : payload.length = 127)
    (hpc : (24 : Nat) ∉ payload) (hw : w ≠ CAN) (hcmp : cmp ≠ CAN)
    (hc : sum8 payload ≠ CAN) (hmm : w ≠ s ∨ cmp ≠ not8 s) :
    (run (read_packet buf)
        ⟨⟨s, true⟩, SOH :: w :: cmp :: (payload ++ sum8 payload :: rest), [], out0, ev0⟩).1
      = .ok (128, setSeq buf 0 payload)
    ∧ CAN ∈ (run (read_packet buf)
        ⟨⟨s, true⟩, SOH :: w :: cmp :: (payload ++ sum8 payload :: rest), [], out0, ev0⟩).2.output := by
  have h := read_packet_data_run buf payload s w cmp (sum8 payload) rest out0 ev0
    hbuf hp hpc hw hcmp hc
  rw [if_pos rfl] at h
  rw [h]
  refine ⟨rfl, ?_⟩
  rcases hmm with h1 | h2
  · simp [h1, CAN]
  · by_cases h1 : w = s
    · simp [h1, h2, CAN]
    · simp [h1, CAN]

theorem claim_C9_witness :
    (run (read_packet (List.replicate 128 9))
        ⟨⟨1, true⟩,
          1 :: 2 :: 254 :: (List.replicate 127 0 ++ sum8 (List.replicate 127 0) :: []),
          [], [], []⟩).1
      = .ok (128, setSeq (List.replicate 128 9) 0 (List.replicate 127 0))
    ∧ CAN ∈ (run (read_packet (List.replicate 128 9))
        ⟨⟨1, true⟩,
          1 :: 2 :: 254 :: (List.replicate 127 0 ++ sum8 (List.replicate 127 0) :: []),
          [], [], []⟩).2.output :=
  claim_C9 (List.replicate 128 9) (List.replicate 127 0) 1 2 254 [] [] []
    (by decide) (by decide) (by decide) (by decide) (by decide) (by decide)
    (Or.inl (by decide))

end Xmodem
